import Mathlib

/-!
# clang-memcheck: the pointer lifecycle checker of `src/MemCheck.cpp`

A shallow embedding of `MemoryAnalysisVisitor` (the AST visitor that tracks, per
declared variable, whether the heap memory bound to it is owned, freed or
unknown) and of `MemoryAnalysisConsumer::HandleTranslationUnit`, followed by
theorems about the transitions the visitor performs.

Modelling decisions:

* `int64_t` declaration identities are `Int`; no arithmetic is done on them, so
  no wrap-around is involved. `currVar = 0` is the source's "no target" value.
* `std::unordered_map<int64_t, PointerState>` is an association list. `at`
  throwing `std::out_of_range` is `none`; `insert` keeps an existing entry, as
  `std::unordered_map::insert` does; the order of the list stands for the
  iteration order of the map.
* `llvm::errs()` and `llvm::outs()` are lists of lines, carried in the visitor
  state. The source location printed by `printError` is reduced to a flag that
  says whether a node was given.
* The clang AST is a small inductive type holding the node classes that the
  visitor inspects; every other node is `Node.Other` with its children.
-/

namespace MemCheck

/-! ## Data model -/

/-- The enum `PointerState` (MemCheck.cpp, lines 15-19). -/
inductive PointerState where
  | UNKNOWN
  | FREE
  | OWNED
deriving DecidableEq, Repr

/-- The map type `MemStateMap` (line 21): entries in iteration order. -/
abbrev MemStateMap := List (Int × PointerState)

namespace MemStateMap

/-- The lookup `stateMap.at(k)`: `none` stands for `std::out_of_range`. -/
def at? : MemStateMap → Int → Option PointerState
  | [], _ => none
  | (k', v) :: rest, k => if k' = k then some v else at? rest k

/-- The call `stateMap.insert({k, v})`: does nothing when `k` has an entry. -/
def insert (m : MemStateMap) (k : Int) (v : PointerState) : MemStateMap :=
  match at? m k with
  | some _ => m
  | none => (k, v) :: m

/-- The assignment `stateMap.at(k) = v`, used by the source only after a
successful lookup of `k`; without an entry the map is left as it is. -/
def assign : MemStateMap → Int → PointerState → MemStateMap
  | [], _, _ => []
  | (k', v') :: rest, k, v =>
    if k' = k then (k', v) :: rest else (k', v') :: assign rest k v

end MemStateMap

/-- The attributes of a clang `VarDecl` that the visitor reads:
`getID()`, `getType()` and `hasInit()`. `QualType`s are compared only for
equality, so a type is a number. The identity clang gives a declaration of a
unit is never 0, the value the visitor itself keeps in `currVar` for "no
variable": theorems about declared variables take `id ≠ 0` as a precondition
on the input. -/
structure VarDecl where
  id : Int
  type : Nat
  hasInit : Bool
deriving DecidableEq, Repr

/-- The declaration a `DeclRefExpr` refers to: a variable, or something that
`dyn_cast<VarDecl>` rejects (a function, an enumerator). -/
inductive ValueDecl where
  | Var (v : VarDecl)
  | NonVar
deriving DecidableEq, Repr

/-- The opcodes `clang::UnaryOperatorKind`. -/
inductive UnaryOperatorKind where
  | UO_PostInc | UO_PostDec | UO_PreInc | UO_PreDec | UO_AddrOf | UO_Deref
  | UO_Plus | UO_Minus | UO_Not | UO_LNot | UO_Real | UO_Imag | UO_Extension
  | UO_Coawait
deriving DecidableEq, Repr

/-- The opcodes `clang::BinaryOperatorKind`. -/
inductive BinaryOperatorKind where
  | BO_PtrMemD | BO_PtrMemI | BO_Mul | BO_Div | BO_Rem | BO_Add | BO_Sub
  | BO_Shl | BO_Shr | BO_Cmp | BO_LT | BO_GT | BO_LE | BO_GE | BO_EQ | BO_NE
  | BO_And | BO_Xor | BO_Or | BO_LAnd | BO_LOr | BO_Assign | BO_MulAssign
  | BO_DivAssign | BO_RemAssign | BO_AddAssign | BO_SubAssign | BO_ShlAssign
  | BO_ShrAssign | BO_AndAssign | BO_XorAssign | BO_OrAssign | BO_Comma
deriving DecidableEq, Repr

/-- The AST nodes. `CallExpr` carries the name of `getDirectCallee()` (`none`
for a call through a function pointer), the callee expression and the
arguments. `Var` is a `VarDecl` node with its initialiser. `__extension__` is
the `UnaryOperator` of opcode `UO_Extension`. `ParenExpr` and
`ImplicitCastExpr` are the nodes without a callback that `IgnoreParenImpCasts`
steps through to one operand `sub`: `ParenExpr` is a parenthesised expression,
and also a `_Generic` selection or a `__builtin_choose_expr` of which `sub` is
the selected operand and the other operands hold no assignment, call, return
or declaration, so that the callbacks run below it are those of `sub`;
`ImplicitCastExpr` is an implicit cast, and also a `FullExpr`. `Other` is any
node class that the visitor has no callback for and that `IgnoreParenImpCasts`
does not step through (translation unit, function, compound statement, `if`,
literal, ...). A `_Generic` selection or `__builtin_choose_expr` with an
assignment, a call, a return or a declaration in an operand that is not the
selected one is not among the nodes. -/
inductive Node where
  | DeclRefExpr (d : ValueDecl)
  | ParenExpr (sub : Node)
  | ImplicitCastExpr (sub : Node)
  | UnaryOperator (op : UnaryOperatorKind) (sub : Node)
  | ArraySubscriptExpr (base idx : Node)
  | BinaryOperator (op : BinaryOperatorKind) (lhs rhs : Node)
  | CallExpr (directCallee : Option String) (callee : Node) (args : List Node)
  | ReturnStmt (retValue : Option Node)
  | Var (v : VarDecl) (init : Option Node)
  | Other (children : List Node)

/-- One line written to `llvm::errs()` by `printError`: whether a node (hence
a source location) was given, and the message. -/
structure ErrorLine where
  hasLoc : Bool
  message : String
deriving DecidableEq, Repr

/-- The mutable members of `MemoryAnalysisVisitor` (lines 27-28) together with
the two output streams it writes to. -/
structure MemoryAnalysisVisitor where
  stateMap : MemStateMap
  currVar : Int
  errs : List ErrorLine
  outs : List String
deriving DecidableEq, Repr

/-- The visitor as constructed: empty map, `currVar = 0`, nothing written. -/
def MemoryAnalysisVisitor.init : MemoryAnalysisVisitor :=
  { stateMap := [], currVar := 0, errs := [], outs := [] }

/-! ## The visitor's helpers -/

/-- The method `printError(node, message)` (lines 30-41). -/
def printError (node : Bool) (message : String) (s : MemoryAnalysisVisitor) :
    MemoryAnalysisVisitor :=
  { s with errs := s.errs ++ [⟨node, message⟩] }

/-- The method `printInfo(message)` (lines 43-45). -/
def printInfo (message : String) (s : MemoryAnalysisVisitor) : MemoryAnalysisVisitor :=
  { s with outs := s.outs ++ ["info: " ++ message ++ "\n"] }

/-- The clang call `Expr::IgnoreParenImpCasts`: it steps, repeatedly, through
parentheses (with the `_Generic` selections and `__builtin_choose_expr` that
`ParenExpr` stands for), implicit casts and `__extension__`, the unary
operator `UO_Extension`. -/
def IgnoreParenImpCasts : Node → Node
  | .ParenExpr e => IgnoreParenImpCasts e
  | .ImplicitCastExpr e => IgnoreParenImpCasts e
  | .UnaryOperator .UO_Extension e => IgnoreParenImpCasts e
  | e => e

/-- The method `unwrapExpr` (lines 47-69): the variable an expression denotes,
`none` for a null expression, for a non-`DeclRefExpr` and for a reference to
something that is not a variable. -/
def unwrapExpr : Option Node → Option VarDecl
  | none => none
  | some expression =>
    match IgnoreParenImpCasts expression with
    | .DeclRefExpr (.Var v) => some v
    | _ => none

/-- The method `checkDeref` (lines 71-111) on a unary operator with opcode `op`
and operand `sub`. The `default:` arm of the switch cannot be taken by a
`PointerState` and is left out. -/
def checkDeref (op : UnaryOperatorKind) (sub : Node) (s : MemoryAnalysisVisitor) :
    Bool × MemoryAnalysisVisitor :=
  if op ≠ .UO_Deref then (true, s)
  else
    match unwrapExpr (some sub) with
    | none => (true, s)
    | some v =>
      match s.stateMap.at? v.id with
      | none => (false, s)
      | some .FREE => (false, printError true "Tried to deref freed memory" s)
      | some .UNKNOWN => (false, printError true "Current state of memory is unknown here" s)
      | some .OWNED => (true, s)

/-- The method `checkIndex` (lines 113-147) on a subscript with base `base`. -/
def checkIndex (base : Node) (s : MemoryAnalysisVisitor) : Bool × MemoryAnalysisVisitor :=
  match unwrapExpr (some base) with
  | none => (true, s)
  | some v =>
    match s.stateMap.at? v.id with
    | none => (false, s)
    | some .FREE => (false, printError true "Tried to index into freed memory" s)
    | some .UNKNOWN => (false, printError true "Current state of memory is unknown here" s)
    | some .OWNED => (true, s)

/-- The loop of `checkMemState` (lines 153-161) over the entries. -/
def checkMemStateLoop : MemStateMap → MemoryAnalysisVisitor → Bool × MemoryAnalysisVisitor
  | [], s => (true, s)
  | (_, .OWNED) :: _, s => (false, printError false "There is potentially unfreed memory" s)
  | (_, .UNKNOWN) :: _, s => (false, printError false "Memory state is unknown" s)
  | (_, .FREE) :: rest, s => checkMemStateLoop rest s

/-- The method `checkMemState` (lines 152-164). -/
def checkMemState (s : MemoryAnalysisVisitor) : Bool × MemoryAnalysisVisitor :=
  checkMemStateLoop s.stateMap s

/-! ## The visitor callbacks -/

/-- The callback `VisitVarDecl` (lines 167-174). -/
def VisitVarDecl (v : VarDecl) (s : MemoryAnalysisVisitor) : Bool × MemoryAnalysisVisitor :=
  if v.hasInit then (true, { s with currVar := v.id }) else (true, s)

/-- The callback `VisitCallExpr` (lines 177-282) on a call whose direct callee
has name `directCallee` and whose arguments are `args`. `Call->getArg(0)` is
`args.head?`. -/
def VisitCallExpr (directCallee : Option String) (args : List Node)
    (s : MemoryAnalysisVisitor) : Bool × MemoryAnalysisVisitor :=
  match directCallee with
  | none => (true, s)
  | some functionName =>
    if functionName = "malloc" ∨ functionName = "calloc" then
      if s.currVar = 0 then
        (false, printError true "Allocated memory is not assigned to a variable!" s)
      else
        (true, { s with stateMap := s.stateMap.insert s.currVar .OWNED })
    else if functionName = "realloc" then
      if s.currVar = 0 then
        (false, printError true "Reallocated memory is not assigned to variable!" s)
      else
        match unwrapExpr args.head? with
        | none => (false, printError true "realloc was not called with a variable" s)
        | some v =>
          if v.id = s.currVar then
            (false, printError true "Cannot reallocate to same variable." s)
          else
            match (s.stateMap.at? s.currVar).getD .UNKNOWN with
            | .FREE => (true, { s with stateMap := s.stateMap.assign s.currVar .OWNED })
            | .UNKNOWN => (true, { s with stateMap := s.stateMap.insert s.currVar .OWNED })
            | .OWNED =>
              (false, printError true "Cannot reallocate to variable pointing into heap" s)
    else if functionName = "free" then
      match unwrapExpr args.head? with
      | none => (false, printError true "free was not called with a variable" s)
      | some v =>
        match (s.stateMap.at? v.id).getD .UNKNOWN with
        | .FREE => (false, printError true "Double free of memory" s)
        | .UNKNOWN => (false, printError true "Current state of memory is unknown here" s)
        | .OWNED => (true, { s with stateMap := s.stateMap.assign v.id .FREE })
    else (true, s)

/-- The aliasing test of `VisitBinaryOperator` (lines 314-334): `true` when the
right-hand side is a variable of the type of `lhsVar` whose state is `OWNED`. -/
def rhsOwnedAlias (lhsVar : VarDecl) (rhs : Node) (s : MemoryAnalysisVisitor) : Bool :=
  match unwrapExpr (some rhs) with
  | none => false
  | some rhsVar =>
    if rhsVar.type = lhsVar.type then
      match (s.stateMap.at? rhsVar.id).getD .UNKNOWN with
      | .OWNED => true
      | .UNKNOWN => false
      | .FREE => false
    else false

/-- The callback `VisitBinaryOperator` (lines 284-358). -/
def VisitBinaryOperator (op : BinaryOperatorKind) (lhs rhs : Node)
    (s : MemoryAnalysisVisitor) : Bool × MemoryAnalysisVisitor :=
  if op ≠ .BO_Assign then (true, s)
  else
    match IgnoreParenImpCasts lhs with
    | .UnaryOperator uop sub => checkDeref uop sub s
    | .ArraySubscriptExpr base _ => checkIndex base s
    | _ =>
      match unwrapExpr (some lhs) with
      | none => (true, s)
      | some lhsVar =>
        if rhsOwnedAlias lhsVar rhs s then
          (false, printError true "Tried to alias pointer into heap memory" s)
        else
          match s.stateMap.at? lhsVar.id with
          | none => (true, s)
          | some .OWNED =>
            (false, printError true "Variable being assigned to has not freed its memory" s)
          | some .UNKNOWN =>
            (false, printError true "Current state of memory is unknown here" s)
          | some .FREE => (true, s)

/-- The callback `VisitReturnStmt` (lines 360-400). -/
def VisitReturnStmt (retValue : Option Node) (s : MemoryAnalysisVisitor) :
    Bool × MemoryAnalysisVisitor :=
  match retValue with
  | none => (true, s)
  | some retExpr =>
    match unwrapExpr (some retExpr) with
    | none => (true, s)
    | some v =>
      match s.stateMap.at? v.id with
      | none => (true, s)
      | some .OWNED =>
        (true, printError true "Attempted to return pointer to heap memory" s)
      | some .FREE =>
        (true, printError true "Attempted to return freed pointer to heap memory" s)
      | some .UNKNOWN =>
        (false, printError true "Current state of memory in return is unknown here" s)

/-! ## The traversal and the consumer -/

/-- What the traversal engine does once a callback has returned `false`.
`RecursiveASTVisitor` is a clang class, not code of this repository, so its
contract is a parameter of the model, with the two readings kept apart:
`abortTraversal`, the one the clang documentation gives (a `Visit...` method
that returns `false` ends the whole traversal), and `skipSubtree`, the one the
design document of this repository gives (the children of the rejecting node
are skipped and the traversal goes on with what follows it, still reporting
failure at the end). Theorems about traversals hold for both unless they name
one. -/
inductive RejectPolicy where
  | abortTraversal
  | skipSubtree
deriving DecidableEq, Repr

mutual
/-- The preorder walk `TraverseDecl` / `TraverseStmt` that `RecursiveASTVisitor`
performs: the callback of the node, then its children in source order. -/
def traverse (p : RejectPolicy) : Node → MemoryAnalysisVisitor → Bool × MemoryAnalysisVisitor
  | .DeclRefExpr _, s => (true, s)
  | .ParenExpr sub, s => traverse p sub s
  | .ImplicitCastExpr sub, s => traverse p sub s
  | .UnaryOperator _ sub, s => traverse p sub s
  | .ArraySubscriptExpr base idx, s =>
    match traverse p base s with
    | (true, s1) => traverse p idx s1
    | (false, s1) =>
      match p with
      | .abortTraversal => (false, s1)
      | .skipSubtree => (false, (traverse p idx s1).2)
  | .BinaryOperator op lhs rhs, s =>
    match VisitBinaryOperator op lhs rhs s with
    | (false, s1) => (false, s1)
    | (true, s1) =>
      match traverse p lhs s1 with
      | (true, s2) => traverse p rhs s2
      | (false, s2) =>
        match p with
        | .abortTraversal => (false, s2)
        | .skipSubtree => (false, (traverse p rhs s2).2)
  | .CallExpr directCallee callee args, s =>
    match VisitCallExpr directCallee args s with
    | (false, s1) => (false, s1)
    | (true, s1) =>
      match traverse p callee s1 with
      | (true, s2) => traverseList p args s2
      | (false, s2) =>
        match p with
        | .abortTraversal => (false, s2)
        | .skipSubtree => (false, (traverseList p args s2).2)
  | .ReturnStmt retValue, s =>
    match VisitReturnStmt retValue s with
    | (false, s1) => (false, s1)
    | (true, s1) =>
      match retValue with
      | none => (true, s1)
      | some e => traverse p e s1
  | .Var v init, s =>
    match VisitVarDecl v s with
    | (false, s1) => (false, s1)
    | (true, s1) =>
      match init with
      | none => (true, s1)
      | some e => traverse p e s1
  | .Other children, s => traverseList p children s
/-- The walk over the children of a node, in order. -/
def traverseList (p : RejectPolicy) : List Node → MemoryAnalysisVisitor →
    Bool × MemoryAnalysisVisitor
  | [], s => (true, s)
  | n :: rest, s =>
    match traverse p n s with
    | (true, s1) => traverseList p rest s1
    | (false, s1) =>
      match p with
      | .abortTraversal => (false, s1)
      | .skipSubtree => (false, (traverseList p rest s1).2)
end

/-- The method `MemoryAnalysisConsumer::HandleTranslationUnit` (lines 411-418)
on the root node `tu`, from the visitor state `s`. -/
def HandleTranslationUnit (p : RejectPolicy) (tu : Node) (s : MemoryAnalysisVisitor) :
    MemoryAnalysisVisitor :=
  match traverse p tu s with
  | (traverseSuccess, s1) =>
    match checkMemState s1 with
    | (memOkay, s2) =>
      if traverseSuccess && memOkay then { s2 with outs := s2.outs ++ ["Memory okay!\n"] }
      else s2

/-! ## The traversal as a sequence of callbacks

The nodes of a subtree in the order in which the traversal reaches them, and
the run of the callbacks over such a sequence. These are used to state
properties of whole units. -/

mutual
/-- The nodes of the subtree of a node, in preorder. -/
def subnodes : Node → List Node
  | .DeclRefExpr d => [.DeclRefExpr d]
  | .ParenExpr sub => .ParenExpr sub :: subnodes sub
  | .ImplicitCastExpr sub => .ImplicitCastExpr sub :: subnodes sub
  | .UnaryOperator op sub => .UnaryOperator op sub :: subnodes sub
  | .ArraySubscriptExpr base idx =>
    .ArraySubscriptExpr base idx :: (subnodes base ++ subnodes idx)
  | .BinaryOperator op lhs rhs => .BinaryOperator op lhs rhs :: (subnodes lhs ++ subnodes rhs)
  | .CallExpr directCallee callee args =>
    .CallExpr directCallee callee args :: (subnodes callee ++ subnodesList args)
  | .ReturnStmt none => [.ReturnStmt none]
  | .ReturnStmt (some e) => .ReturnStmt (some e) :: subnodes e
  | .Var v none => [.Var v none]
  | .Var v (some e) => .Var v (some e) :: subnodes e
  | .Other children => .Other children :: subnodesList children
/-- The nodes of the subtrees of a list of nodes, in preorder. -/
def subnodesList : List Node → List Node
  | [] => []
  | n :: rest => subnodes n ++ subnodesList rest
end

/-- The callback that the traversal invokes on a node: one of the four
`Visit...` methods of the visitor, or nothing for the other node classes. -/
def visit : Node → MemoryAnalysisVisitor → Bool × MemoryAnalysisVisitor
  | .BinaryOperator op lhs rhs, s => VisitBinaryOperator op lhs rhs s
  | .CallExpr directCallee _ args, s => VisitCallExpr directCallee args s
  | .ReturnStmt retValue, s => VisitReturnStmt retValue s
  | .Var v _, s => VisitVarDecl v s
  | _, s => (true, s)

/-- The callbacks of a sequence of nodes, one after the other, up to the first
that returns `false`. -/
def runVisits : List Node → MemoryAnalysisVisitor → Bool × MemoryAnalysisVisitor
  | [], s => (true, s)
  | n :: rest, s =>
    match visit n s with
    | (true, s1) => runVisits rest s1
    | (false, s1) => (false, s1)

/-- A node on which no callback acts: not an assignment, not a call of one of
the four allocator functions, not a return of an expression, not a
declaration with an initialiser. -/
def visitsNothing : Node → Bool
  | .BinaryOperator op _ _ => op != .BO_Assign
  | .CallExpr none _ _ => true
  | .CallExpr (some fn) _ _ =>
    fn != "malloc" && fn != "calloc" && fn != "realloc" && fn != "free"
  | .ReturnStmt none => true
  | .ReturnStmt (some _) => false
  | .Var v _ => !v.hasInit
  | _ => true

/-- A subtree in which no callback acts (the size expression of a `malloc`,
the callee expression of a call, ...). -/
def quiet (n : Node) : Bool := (subnodes n).all visitsNothing

/-- A node that declares a variable of identity `k`. -/
def declaresId (k : Int) : Node → Bool
  | .Var w _ => w.id == k
  | _ => false

/-- A node that is a call of `free` on the variable of identity `k`. -/
def freesId (k : Int) : Node → Bool
  | .CallExpr (some fn) _ args =>
    fn == "free" &&
      match unwrapExpr args.head? with
      | some w => w.id == k
      | none => false
  | _ => false

/-- No entry of the map holds `UNKNOWN`. -/
def NoUnknown (m : MemStateMap) : Prop := ∀ e ∈ m, e.2 ≠ PointerState.UNKNOWN

/-- The keys of the map are pairwise distinct, as in any `std::unordered_map`. -/
def NodupKeys (m : MemStateMap) : Prop := (m.map Prod.fst).Nodup

/-- The two policies agree on whether a traversal succeeds, and on the state
it ends in when it does. -/
def SkipAgrees (r r' : Bool × MemoryAnalysisVisitor) : Prop :=
  r.1 = r'.1 ∧ (r'.1 = true → r = r')

/-- The children of a node, in the order in which the traversal descends into
them. -/
def children : Node → List Node
  | .DeclRefExpr _ => []
  | .ParenExpr sub => [sub]
  | .ImplicitCastExpr sub => [sub]
  | .UnaryOperator _ sub => [sub]
  | .ArraySubscriptExpr base idx => [base, idx]
  | .BinaryOperator _ lhs rhs => [lhs, rhs]
  | .CallExpr _ callee args => callee :: args
  | .ReturnStmt none => []
  | .ReturnStmt (some e) => [e]
  | .Var _ none => []
  | .Var _ (some e) => [e]
  | .Other cs => cs

/-- A statement of such a unit: `T v = init;` or `free(args)` with an argument
that denotes `v`. -/
inductive Step where
  | alloc (v : VarDecl) (init : Node)
  | free (v : VarDecl) (callee : Node) (args : List Node)

namespace Step

/-- The AST of a step: a declaration statement holding the variable
declaration, or the call expression. -/
def node : Step → Node
  | .alloc v init => .Other [.Var v (some init)]
  | .free _ callee args => .CallExpr (some "free") callee args

/-- The shape of a step: the declaration has an initialiser that is, up to
what `IgnoreParenImpCasts` steps through, a call of `malloc` or `calloc` whose
callee and argument expressions are quiet; the first argument of the `free` call denotes
the variable, and its callee and argument expressions are quiet. -/
def wellFormed : Step → Bool
  | .alloc v init =>
    v.hasInit &&
      match IgnoreParenImpCasts init with
      | .CallExpr (some fn) callee args =>
        (fn == "malloc" || fn == "calloc") && quiet callee && args.all quiet
      | _ => false
  | .free v callee args =>
    (unwrapExpr args.head? == some v) && quiet callee && args.all quiet

/-- The identity declared by a step, if it is a declaration. -/
def allocId : Step → Option Int
  | .alloc v _ => some v.id
  | .free _ _ _ => none

/-- The identity freed by a step, if it is a `free` call. -/
def freeId : Step → Option Int
  | .alloc _ _ => none
  | .free v _ _ => some v.id

end Step

/-- The identities declared by a sequence of steps, in order. -/
def allocIds (steps : List Step) : List Int := steps.filterMap Step.allocId

/-- The identities freed by a sequence of steps, in order. -/
def freeIds (steps : List Step) : List Int := steps.filterMap Step.freeId

/-- The discipline of a clean unit: every step has the expected shape, the
declared variables are pairwise distinct, no variable is freed twice, every
declared variable is freed, and every `free` comes after the declaration of
the variable it frees. -/
structure Disciplined (steps : List Step) : Prop where
  shape : ∀ st ∈ steps, st.wellFormed = true
  distinct : (allocIds steps).Nodup
  freedOnce : (freeIds steps).Nodup
  freed : ∀ k ∈ allocIds steps, k ∈ freeIds steps
  after : ∀ (pre post : List Step) (st : Step) (k : Int),
    steps = pre ++ st :: post → st.freeId = some k → k ∈ allocIds pre

/-- The state after the steps `pre` of a clean unit: nothing written, keys
pairwise distinct, and an entry exactly for the variables declared so far,
`FREE` for those already freed and `OWNED` for the others. -/
def Tracks (pre : List Step) (s : MemoryAnalysisVisitor) : Prop :=
  s.errs = [] ∧ s.outs = [] ∧ NodupKeys s.stateMap ∧
  ∀ k : Int, s.stateMap.at? k =
    if k ∈ allocIds pre then (if k ∈ freeIds pre then some .FREE else some .OWNED) else none

/-! ## The test unit `tests/leak.c` -/

/-- The initialiser `malloc(sizeof(int) * 10)` of the declarations of
`tests/leak.c`, with the implicit cast of the result to `int *`. -/
def mallocInit : Node :=
  .ImplicitCastExpr
    (.CallExpr (some "malloc") (.ImplicitCastExpr (.DeclRefExpr .NonVar))
      [.BinaryOperator .BO_Mul (.Other []) (.ImplicitCastExpr (.Other []))])

/-- The AST of `tests/leak.c`: `memory_leak` declares `ptr` (identity 1),
`no_leak` declares `ptr` (identity 2) and frees it, `main` calls both. -/
def leakUnit : Node :=
  .Other [
    .Other [.Other [.Other [.Var ⟨1, 0, true⟩ (some mallocInit)]]],
    .Other [.Other [
      .Other [.Var ⟨2, 0, true⟩ (some mallocInit)],
      .CallExpr (some "free") (.ImplicitCastExpr (.DeclRefExpr .NonVar))
        [.ImplicitCastExpr (.ImplicitCastExpr (.DeclRefExpr (.Var ⟨2, 0, true⟩)))]]],
    .Other [.Other [
      .CallExpr (some "memory_leak") (.ImplicitCastExpr (.DeclRefExpr .NonVar)) [],
      .CallExpr (some "no_leak") (.ImplicitCastExpr (.DeclRefExpr .NonVar)) [],
      .ReturnStmt (some (.Other []))]]]

/-! ## Lemmas about the map -/

namespace MemStateMap

theorem at?_assign_self (m : MemStateMap) (k : Int) (v : PointerState)
    (h : (at? m k).isSome) : at? (assign m k v) k = some v := by
  induction m with
  | nil => simp [at?] at h
  | cons e rest ih =>
    obtain ⟨k', v'⟩ := e
    by_cases hk : k' = k
    · simp [assign, at?, hk]
    · simp only [at?, hk, if_false] at h
      simp [assign, at?, hk, ih h]

theorem at?_assign_ne (m : MemStateMap) (k k' : Int) (v : PointerState)
    (h : k' ≠ k) : at? (assign m k v) k' = at? m k' := by
  induction m with
  | nil => rfl
  | cons e rest ih =>
    obtain ⟨k0, v0⟩ := e
    by_cases hk : k0 = k
    · subst hk
      have : ¬ k0 = k' := fun h' => h h'.symm
      simp [assign, at?, this]
    · by_cases hk' : k0 = k'
      · subst hk'
        simp [assign, at?, hk]
      · simp [assign, at?, hk, hk', ih]

theorem at?_insert_self_of_none (m : MemStateMap) (k : Int) (v : PointerState)
    (h : at? m k = none) : at? (insert m k v) k = some v := by
  simp [insert, h, at?]

theorem insert_of_some (m : MemStateMap) (k : Int) (v w : PointerState)
    (h : at? m k = some w) : insert m k v = m := by
  simp [insert, h]

theorem at?_insert_ne (m : MemStateMap) (k k' : Int) (v : PointerState)
    (h : k' ≠ k) : at? (insert m k v) k' = at? m k' := by
  unfold insert
  cases hm : at? m k with
  | some w => rfl
  | none =>
    have : ¬ k = k' := fun h' => h h'.symm
    simp [at?, this]

theorem at?_assign_eq_none (m : MemStateMap) (k k' : Int) (v : PointerState) :
    at? (assign m k v) k' = none ↔ at? m k' = none := by
  induction m with
  | nil => simp [assign]
  | cons e rest ih =>
    obtain ⟨k0, v0⟩ := e
    by_cases hk : k0 = k
    · subst hk
      by_cases hk' : k0 = k' <;> simp [assign, at?, hk']
    · by_cases hk' : k0 = k'
      · subst hk'
        simp [assign, at?, hk]
      · simp [assign, at?, hk, hk', ih]

theorem at?_insert_eq_none (m : MemStateMap) (k k' : Int) (v : PointerState)
    (h : k' ≠ k) : at? (insert m k v) k' = none ↔ at? m k' = none := by
  rw [at?_insert_ne m k k' v h]

end MemStateMap

/-! ## What the callbacks leave as it was -/

theorem printError_stateMap (b : Bool) (msg : String) (s : MemoryAnalysisVisitor) :
    (printError b msg s).stateMap = s.stateMap := rfl

theorem printError_currVar (b : Bool) (msg : String) (s : MemoryAnalysisVisitor) :
    (printError b msg s).currVar = s.currVar := rfl

theorem checkDeref_frame (op : UnaryOperatorKind) (sub : Node) (s : MemoryAnalysisVisitor) :
    (checkDeref op sub s).2.stateMap = s.stateMap ∧
    (checkDeref op sub s).2.currVar = s.currVar := by
  unfold checkDeref
  split
  · exact ⟨rfl, rfl⟩
  · split
    · exact ⟨rfl, rfl⟩
    · split <;> exact ⟨rfl, rfl⟩

theorem checkIndex_frame (base : Node) (s : MemoryAnalysisVisitor) :
    (checkIndex base s).2.stateMap = s.stateMap ∧
    (checkIndex base s).2.currVar = s.currVar := by
  unfold checkIndex
  split
  · exact ⟨rfl, rfl⟩
  · split <;> exact ⟨rfl, rfl⟩

theorem VisitBinaryOperator_frame (op : BinaryOperatorKind) (lhs rhs : Node)
    (s : MemoryAnalysisVisitor) :
    (VisitBinaryOperator op lhs rhs s).2.stateMap = s.stateMap ∧
    (VisitBinaryOperator op lhs rhs s).2.currVar = s.currVar := by
  unfold VisitBinaryOperator
  split
  · exact ⟨rfl, rfl⟩
  · split
    · exact checkDeref_frame _ _ _
    · exact checkIndex_frame _ _
    · split
      · exact ⟨rfl, rfl⟩
      · split
        · exact ⟨rfl, rfl⟩
        · split <;> exact ⟨rfl, rfl⟩

theorem VisitReturnStmt_frame (retValue : Option Node) (s : MemoryAnalysisVisitor) :
    (VisitReturnStmt retValue s).2.stateMap = s.stateMap ∧
    (VisitReturnStmt retValue s).2.currVar = s.currVar := by
  unfold VisitReturnStmt
  split
  · exact ⟨rfl, rfl⟩
  · split
    · exact ⟨rfl, rfl⟩
    · split <;> exact ⟨rfl, rfl⟩

theorem VisitVarDecl_stateMap (v : VarDecl) (s : MemoryAnalysisVisitor) :
    (VisitVarDecl v s).2.stateMap = s.stateMap := by
  unfold VisitVarDecl; split <;> rfl

theorem VisitVarDecl_fst (v : VarDecl) (s : MemoryAnalysisVisitor) :
    (VisitVarDecl v s).1 = true := by
  unfold VisitVarDecl; split <;> rfl

theorem VisitCallExpr_currVar (dc : Option String) (args : List Node)
    (s : MemoryAnalysisVisitor) : (VisitCallExpr dc args s).2.currVar = s.currVar := by
  unfold VisitCallExpr
  repeat' split
  all_goals rfl


theorem VisitCallExpr_free (args : List Node) (s : MemoryAnalysisVisitor) :
    VisitCallExpr (some "free") args s =
      match unwrapExpr args.head? with
      | none => (false, printError true "free was not called with a variable" s)
      | some v =>
        match (s.stateMap.at? v.id).getD .UNKNOWN with
        | .FREE => (false, printError true "Double free of memory" s)
        | .UNKNOWN => (false, printError true "Current state of memory is unknown here" s)
        | .OWNED => (true, { s with stateMap := s.stateMap.assign v.id .FREE }) := by
  simp [VisitCallExpr]

theorem VisitCallExpr_alloc (fn : String) (hfn : fn = "malloc" ∨ fn = "calloc")
    (args : List Node) (s : MemoryAnalysisVisitor) :
    VisitCallExpr (some fn) args s =
      if s.currVar = 0 then
        (false, printError true "Allocated memory is not assigned to a variable!" s)
      else (true, { s with stateMap := s.stateMap.insert s.currVar .OWNED }) := by
  simp [VisitCallExpr, hfn]

theorem VisitCallExpr_realloc (args : List Node) (s : MemoryAnalysisVisitor) :
    VisitCallExpr (some "realloc") args s =
      if s.currVar = 0 then
        (false, printError true "Reallocated memory is not assigned to variable!" s)
      else
        match unwrapExpr args.head? with
        | none => (false, printError true "realloc was not called with a variable" s)
        | some v =>
          if v.id = s.currVar then
            (false, printError true "Cannot reallocate to same variable." s)
          else
            match (s.stateMap.at? s.currVar).getD .UNKNOWN with
            | .FREE => (true, { s with stateMap := s.stateMap.assign s.currVar .OWNED })
            | .UNKNOWN => (true, { s with stateMap := s.stateMap.insert s.currVar .OWNED })
            | .OWNED =>
              (false, printError true "Cannot reallocate to variable pointing into heap" s) := by
  simp [VisitCallExpr]

theorem VisitCallExpr_absent (dc : Option String) (args : List Node)
    (s : MemoryAnalysisVisitor) (k : Int) (hk : s.currVar ≠ k)
    (h : s.stateMap.at? k = none) : (VisitCallExpr dc args s).2.stateMap.at? k = none := by
  have hk' : k ≠ s.currVar := fun e => hk e.symm
  unfold VisitCallExpr
  repeat' split
  all_goals
    first
    | exact h
    | exact (MemStateMap.at?_insert_eq_none _ _ _ _ hk').2 h
    | exact (MemStateMap.at?_assign_eq_none _ _ _ _).2 h

/-! ## Traversal through parentheses, implicit casts and `__extension__` -/

theorem traverse_IgnoreParenImpCasts (p : RejectPolicy) :
    ∀ (e : Node) (s : MemoryAnalysisVisitor),
      traverse p e s = traverse p (IgnoreParenImpCasts e) s
  | .ParenExpr e, s => by
    rw [traverse, IgnoreParenImpCasts]; exact traverse_IgnoreParenImpCasts p e s
  | .ImplicitCastExpr e, s => by
    rw [traverse, IgnoreParenImpCasts]; exact traverse_IgnoreParenImpCasts p e s
  | .DeclRefExpr _, _ => by simp [IgnoreParenImpCasts]
  | .UnaryOperator op e, s => by
    cases op
    case UO_Extension =>
      rw [traverse, IgnoreParenImpCasts]; exact traverse_IgnoreParenImpCasts p e s
    all_goals simp [IgnoreParenImpCasts]
  | .ArraySubscriptExpr _ _, _ => by simp [IgnoreParenImpCasts]
  | .BinaryOperator _ _ _, _ => by simp [IgnoreParenImpCasts]
  | .CallExpr _ _ _, _ => by simp [IgnoreParenImpCasts]
  | .ReturnStmt _, _ => by simp [IgnoreParenImpCasts]
  | .Var _ _, _ => by simp [IgnoreParenImpCasts]
  | .Other _, _ => by simp [IgnoreParenImpCasts]

theorem IgnoreParenImpCasts_of_unwrapExpr {e : Node} {v : VarDecl}
    (h : unwrapExpr (some e) = some v) : IgnoreParenImpCasts e = .DeclRefExpr (.Var v) := by
  unfold unwrapExpr at h
  split at h
  · cases h
  · next x heq =>
    cases heq
    split at h
    · next w hw => cases h; exact hw
    · cases h

theorem traverse_of_unwrapExpr (p : RejectPolicy) {e : Node} {v : VarDecl}
    (h : unwrapExpr (some e) = some v) (s : MemoryAnalysisVisitor) :
    traverse p e s = (true, s) := by
  rw [traverse_IgnoreParenImpCasts, IgnoreParenImpCasts_of_unwrapExpr h, traverse]

/-- The expression `__extension__ e` denotes the variable that `e` denotes. -/
theorem unwrapExpr_extension (e : Node) :
    unwrapExpr (some (.UnaryOperator .UO_Extension e)) = unwrapExpr (some e) := by
  simp [unwrapExpr, IgnoreParenImpCasts]

/-- The callbacks on `(__extension__ p) = 0`, `return __extension__ p`,
`x = __extension__ p` and `free(__extension__ p)` with `p` (identity 1)
`OWNED` and `x` (identity 2) of the type of `p`: the variable is resolved, so
the overwrite, return and aliasing lines are written and the `free` makes `p`
`FREE`. -/
theorem extension_resolved :
    VisitBinaryOperator .BO_Assign
        (.ParenExpr (.UnaryOperator .UO_Extension (.DeclRefExpr (.Var ⟨1, 0, true⟩))))
        (.Other []) ⟨[(1, .OWNED)], 1, [], []⟩
      = (false, ⟨[(1, .OWNED)], 1,
          [⟨true, "Variable being assigned to has not freed its memory"⟩], []⟩) ∧
    VisitReturnStmt
        (some (.UnaryOperator .UO_Extension
          (.ImplicitCastExpr (.DeclRefExpr (.Var ⟨1, 0, true⟩)))))
        ⟨[(1, .OWNED)], 1, [], []⟩
      = (true, ⟨[(1, .OWNED)], 1,
          [⟨true, "Attempted to return pointer to heap memory"⟩], []⟩) ∧
    VisitBinaryOperator .BO_Assign (.DeclRefExpr (.Var ⟨2, 0, false⟩))
        (.UnaryOperator .UO_Extension (.ImplicitCastExpr (.DeclRefExpr (.Var ⟨1, 0, true⟩))))
        ⟨[(1, .OWNED)], 1, [], []⟩
      = (false, ⟨[(1, .OWNED)], 1,
          [⟨true, "Tried to alias pointer into heap memory"⟩], []⟩) ∧
    VisitCallExpr (some "free")
        [.UnaryOperator .UO_Extension (.ImplicitCastExpr (.DeclRefExpr (.Var ⟨1, 0, true⟩)))]
        ⟨[(1, .OWNED)], 1, [], []⟩
      = (true, ⟨[(1, .FREE)], 1, [], []⟩) := by
  decide

/-! ## The assignment callback, by the form of the left-hand side -/

theorem VisitBinaryOperator_var (lhs rhs : Node) (q : VarDecl) (s : MemoryAnalysisVisitor)
    (hq : unwrapExpr (some lhs) = some q) :
    VisitBinaryOperator .BO_Assign lhs rhs s =
      if rhsOwnedAlias q rhs s then
        (false, printError true "Tried to alias pointer into heap memory" s)
      else
        match s.stateMap.at? q.id with
        | none => (true, s)
        | some .OWNED =>
          (false, printError true "Variable being assigned to has not freed its memory" s)
        | some .UNKNOWN =>
          (false, printError true "Current state of memory is unknown here" s)
        | some .FREE => (true, s) := by
  simp [VisitBinaryOperator, IgnoreParenImpCasts_of_unwrapExpr hq, hq]

theorem VisitBinaryOperator_deref (lhs rhs sub : Node) (s : MemoryAnalysisVisitor)
    (h : IgnoreParenImpCasts lhs = .UnaryOperator .UO_Deref sub) :
    VisitBinaryOperator .BO_Assign lhs rhs s = checkDeref .UO_Deref sub s := by
  simp [VisitBinaryOperator, h]

theorem VisitBinaryOperator_index (lhs rhs base idx : Node) (s : MemoryAnalysisVisitor)
    (h : IgnoreParenImpCasts lhs = .ArraySubscriptExpr base idx) :
    VisitBinaryOperator .BO_Assign lhs rhs s = checkIndex base s := by
  simp [VisitBinaryOperator, h]

/-! ## The traversal is the run of the callbacks over the preorder -/

theorem runVisits_append (l1 l2 : List Node) (s : MemoryAnalysisVisitor) :
    runVisits (l1 ++ l2) s =
      if (runVisits l1 s).1 then runVisits l2 (runVisits l1 s).2
      else (false, (runVisits l1 s).2) := by
  induction l1 generalizing s with
  | nil => simp [runVisits]
  | cons n rest ih =>
    simp only [List.cons_append, runVisits]
    rcases h : visit n s with ⟨b, s1⟩
    cases b
    · simp
    · exact ih s1

theorem runVisits_false {l : List Node} {s : MemoryAnalysisVisitor}
    (h : (runVisits l s).1 = false) : runVisits l s = (false, (runVisits l s).2) := by
  rw [← h]

mutual
theorem traverse_abort :
    ∀ (n : Node) (s : MemoryAnalysisVisitor),
      traverse .abortTraversal n s = runVisits (subnodes n) s
  | .DeclRefExpr _, s => by simp [traverse, subnodes, runVisits, visit]
  | .ParenExpr sub, s => by
    simp only [traverse, subnodes, runVisits, visit]; exact traverse_abort sub s
  | .ImplicitCastExpr sub, s => by
    simp only [traverse, subnodes, runVisits, visit]; exact traverse_abort sub s
  | .UnaryOperator _ sub, s => by
    simp only [traverse, subnodes, runVisits, visit]; exact traverse_abort sub s
  | .ArraySubscriptExpr base idx, s => by
    simp only [traverse, subnodes, runVisits, visit, runVisits_append]
    rw [traverse_abort base s]
    rcases h : runVisits (subnodes base) s with ⟨b, s1⟩
    cases b
    · simp
    · simp [traverse_abort idx s1]
  | .BinaryOperator op lhs rhs, s => by
    simp only [traverse, subnodes, runVisits, visit, runVisits_append]
    rcases hv : VisitBinaryOperator op lhs rhs s with ⟨b0, s0⟩
    cases b0
    · simp
    · simp only []
      rw [traverse_abort lhs s0]
      rcases h : runVisits (subnodes lhs) s0 with ⟨b, s1⟩
      cases b
      · simp
      · simp [traverse_abort rhs s1]
  | .CallExpr dc callee args, s => by
    simp only [traverse, subnodes, runVisits, visit, runVisits_append]
    rcases hv : VisitCallExpr dc args s with ⟨b0, s0⟩
    cases b0
    · simp
    · simp only []
      rw [traverse_abort callee s0]
      rcases h : runVisits (subnodes callee) s0 with ⟨b, s1⟩
      cases b
      · simp
      · simp [traverseList_abort args s1]
  | .ReturnStmt none, s => by
    simp [traverse, subnodes, runVisits, visit, VisitReturnStmt]
  | .ReturnStmt (some e), s => by
    simp only [traverse, subnodes, runVisits, visit]
    rcases hv : VisitReturnStmt (some e) s with ⟨b0, s0⟩
    cases b0
    · simp
    · simp [traverse_abort e s0]
  | .Var v none, s => by
    simp only [traverse, subnodes, runVisits, visit]
    rcases hv : VisitVarDecl v s with ⟨b0, s0⟩
    cases b0 <;> simp
  | .Var v (some e), s => by
    simp only [traverse, subnodes, runVisits, visit]
    rcases hv : VisitVarDecl v s with ⟨b0, s0⟩
    cases b0
    · simp
    · simp [traverse_abort e s0]
  | .Other children, s => by
    simp only [traverse, subnodes, runVisits, visit]
    exact traverseList_abort children s
theorem traverseList_abort :
    ∀ (l : List Node) (s : MemoryAnalysisVisitor),
      traverseList .abortTraversal l s = runVisits (subnodesList l) s
  | [], s => by simp [traverseList, subnodesList, runVisits]
  | n :: rest, s => by
    simp only [traverseList, subnodesList, runVisits_append]
    rw [traverse_abort n s]
    rcases h : runVisits (subnodes n) s with ⟨b, s1⟩
    cases b
    · simp
    · simp [traverseList_abort rest s1]
end

theorem SkipAgrees.refl (r : Bool × MemoryAnalysisVisitor) : SkipAgrees r r :=
  ⟨rfl, fun _ => rfl⟩

theorem SkipAgrees.seq {a a' r r' : Bool × MemoryAnalysisVisitor}
    {f f' : MemoryAnalysisVisitor → Bool × MemoryAnalysisVisitor}
    (h : SkipAgrees a a') (hf : ∀ s, SkipAgrees (f s) (f' s))
    (hr : a.1 = true → r = f a.2) (hr0 : a.1 = false → r.1 = false)
    (hr' : a'.1 = true → r' = f' a'.2) (hr0' : a'.1 = false → r'.1 = false) :
    SkipAgrees r r' := by
  obtain ⟨b, s1⟩ := a
  obtain ⟨b', s1'⟩ := a'
  obtain ⟨h1, h2⟩ := h
  simp only at h1 h2 hr hr0 hr' hr0'
  subst h1
  cases b
  · exact ⟨by rw [hr0 rfl, hr0' rfl], fun h => by rw [hr0' rfl] at h; cases h⟩
  · have := h2 rfl
    cases this
    rw [hr rfl, hr' rfl]
    exact hf s1

mutual
theorem traverse_skip :
    ∀ (n : Node) (s : MemoryAnalysisVisitor),
      SkipAgrees (traverse .skipSubtree n s) (traverse .abortTraversal n s)
  | .DeclRefExpr _, s => by simp only [traverse]; exact SkipAgrees.refl _
  | .ParenExpr sub, s => by simp only [traverse]; exact traverse_skip sub s
  | .ImplicitCastExpr sub, s => by simp only [traverse]; exact traverse_skip sub s
  | .UnaryOperator _ sub, s => by simp only [traverse]; exact traverse_skip sub s
  | .ArraySubscriptExpr base idx, s => by
    simp only [traverse]
    exact SkipAgrees.seq (traverse_skip base s) (fun s1 => traverse_skip idx s1)
        (by intro h; split <;> simp_all) (by intro h; split <;> simp_all)
        (by intro h; split <;> simp_all) (by intro h; split <;> simp_all)
  | .BinaryOperator op lhs rhs, s => by
    simp only [traverse]
    rcases hv : VisitBinaryOperator op lhs rhs s with ⟨b0, s0⟩
    cases b0
    · exact SkipAgrees.refl _
    · simp only []
      exact SkipAgrees.seq (traverse_skip lhs s0) (fun s1 => traverse_skip rhs s1)
        (by intro h; split <;> simp_all) (by intro h; split <;> simp_all)
        (by intro h; split <;> simp_all) (by intro h; split <;> simp_all)
  | .CallExpr dc callee args, s => by
    simp only [traverse]
    rcases hv : VisitCallExpr dc args s with ⟨b0, s0⟩
    cases b0
    · exact SkipAgrees.refl _
    · simp only []
      exact SkipAgrees.seq (traverse_skip callee s0) (fun s1 => traverseList_skip args s1)
        (by intro h; split <;> simp_all) (by intro h; split <;> simp_all)
        (by intro h; split <;> simp_all) (by intro h; split <;> simp_all)
  | .ReturnStmt none, s => by simp only [traverse]; exact SkipAgrees.refl _
  | .ReturnStmt (some e), s => by
    simp only [traverse]
    rcases hv : VisitReturnStmt (some e) s with ⟨b0, s0⟩
    cases b0
    · exact SkipAgrees.refl _
    · exact traverse_skip e s0
  | .Var v none, s => by simp only [traverse]; exact SkipAgrees.refl _
  | .Var v (some e), s => by
    simp only [traverse]
    rcases hv : VisitVarDecl v s with ⟨b0, s0⟩
    cases b0
    · exact SkipAgrees.refl _
    · exact traverse_skip e s0
  | .Other children, s => by simp only [traverse]; exact traverseList_skip children s
theorem traverseList_skip :
    ∀ (l : List Node) (s : MemoryAnalysisVisitor),
      SkipAgrees (traverseList .skipSubtree l s) (traverseList .abortTraversal l s)
  | [], s => by simp only [traverseList]; exact SkipAgrees.refl _
  | n :: rest, s => by
    simp only [traverseList]
    exact SkipAgrees.seq (traverse_skip n s) (fun s1 => traverseList_skip rest s1)
        (by intro h; split <;> simp_all) (by intro h; split <;> simp_all)
        (by intro h; split <;> simp_all) (by intro h; split <;> simp_all)
end

/-- Under either policy a traversal succeeds exactly when every callback of
the preorder returns `true`. -/
theorem traverse_fst (pol : RejectPolicy) (n : Node) (s : MemoryAnalysisVisitor) :
    (traverse pol n s).1 = (runVisits (subnodes n) s).1 := by
  cases pol with
  | abortTraversal => rw [traverse_abort]
  | skipSubtree => rw [(traverse_skip n s).1, traverse_abort]

/-- A traversal in which every callback returns `true` is the run of the
callbacks over the preorder, under either policy. -/
theorem traverse_eq_runVisits (pol : RejectPolicy) (n : Node) (s : MemoryAnalysisVisitor)
    (h : (runVisits (subnodes n) s).1 = true) :
    traverse pol n s = runVisits (subnodes n) s := by
  cases pol with
  | abortTraversal => rw [traverse_abort]
  | skipSubtree =>
    rw [← traverse_abort] at h ⊢
    exact (traverse_skip n s).2 h

/-! ## Runs of callbacks: invariants and quiet nodes -/

theorem visit_of_visitsNothing {m : Node} (h : visitsNothing m = true)
    (s : MemoryAnalysisVisitor) : visit m s = (true, s) := by
  cases m with
  | BinaryOperator op lhs rhs =>
    have : op ≠ .BO_Assign := by simpa [visitsNothing] using h
    simp [visit, VisitBinaryOperator, this]
  | CallExpr dc callee args =>
    cases dc with
    | none => simp [visit, VisitCallExpr]
    | some fn =>
      simp only [visitsNothing, Bool.and_eq_true, bne_iff_ne, ne_eq] at h
      obtain ⟨⟨⟨h1, h2⟩, h3⟩, h4⟩ := h
      simp [visit, VisitCallExpr, h1, h2, h3, h4]
  | ReturnStmt r =>
    cases r with
    | none => simp [visit, VisitReturnStmt]
    | some e => simp [visitsNothing] at h
  | Var v init =>
    have : v.hasInit = false := by simpa [visitsNothing] using h
    simp [visit, VisitVarDecl, this]
  | DeclRefExpr _ => rfl
  | ParenExpr _ => rfl
  | ImplicitCastExpr _ => rfl
  | UnaryOperator _ _ => rfl
  | ArraySubscriptExpr _ _ => rfl
  | Other _ => rfl

theorem runVisits_quiet :
    ∀ (l : List Node) (s : MemoryAnalysisVisitor),
      (∀ m ∈ l, visitsNothing m = true) → runVisits l s = (true, s)
  | [], s, _ => rfl
  | n :: rest, s, h => by
    simp only [runVisits, visit_of_visitsNothing (h n (List.mem_cons_self _ _)) s]
    exact runVisits_quiet rest s (fun m hm => h m (List.mem_cons_of_mem _ hm))

/-- The preorder of an expression is a run of parentheses, casts and
`__extension__` followed by the preorder of what they enclose. -/
theorem subnodes_IgnoreParenImpCasts :
    ∀ e : Node, ∃ ws : List Node,
      subnodes e = ws ++ subnodes (IgnoreParenImpCasts e) ∧
      ∀ m ∈ ws, visitsNothing m = true ∧ ∀ k, declaresId k m = false ∧ freesId k m = false
  | .ParenExpr e => by
    obtain ⟨ws, h1, h2⟩ := subnodes_IgnoreParenImpCasts e
    refine ⟨.ParenExpr e :: ws, by simp [subnodes, IgnoreParenImpCasts, h1], ?_⟩
    intro m hm
    rcases List.mem_cons.1 hm with rfl | hm
    · exact ⟨rfl, fun _ => ⟨rfl, rfl⟩⟩
    · exact h2 m hm
  | .ImplicitCastExpr e => by
    obtain ⟨ws, h1, h2⟩ := subnodes_IgnoreParenImpCasts e
    refine ⟨.ImplicitCastExpr e :: ws, by simp [subnodes, IgnoreParenImpCasts, h1], ?_⟩
    intro m hm
    rcases List.mem_cons.1 hm with rfl | hm
    · exact ⟨rfl, fun _ => ⟨rfl, rfl⟩⟩
    · exact h2 m hm
  | .DeclRefExpr _ => ⟨[], by simp [IgnoreParenImpCasts], by simp⟩
  | .UnaryOperator op e => by
    cases op
    case UO_Extension =>
      obtain ⟨ws, h1, h2⟩ := subnodes_IgnoreParenImpCasts e
      refine ⟨.UnaryOperator .UO_Extension e :: ws,
        by simp [subnodes, IgnoreParenImpCasts, h1], ?_⟩
      intro m hm
      rcases List.mem_cons.1 hm with rfl | hm
      · exact ⟨rfl, fun _ => ⟨rfl, rfl⟩⟩
      · exact h2 m hm
    all_goals exact ⟨[], by simp [IgnoreParenImpCasts], by simp⟩
  | .ArraySubscriptExpr _ _ => ⟨[], by simp [IgnoreParenImpCasts], by simp⟩
  | .BinaryOperator _ _ _ => ⟨[], by simp [IgnoreParenImpCasts], by simp⟩
  | .CallExpr _ _ _ => ⟨[], by simp [IgnoreParenImpCasts], by simp⟩
  | .ReturnStmt _ => ⟨[], by simp [IgnoreParenImpCasts], by simp⟩
  | .Var _ _ => ⟨[], by simp [IgnoreParenImpCasts], by simp⟩
  | .Other _ => ⟨[], by simp [IgnoreParenImpCasts], by simp⟩

theorem runVisits_append_true {l1 l2 : List Node} {s : MemoryAnalysisVisitor}
    (h : (runVisits (l1 ++ l2) s).1 = true) :
    (runVisits l1 s).1 = true ∧ runVisits (l1 ++ l2) s = runVisits l2 (runVisits l1 s).2 := by
  rw [runVisits_append] at h ⊢
  cases h1 : (runVisits l1 s).1 with
  | false => simp [h1] at h
  | true => simp

theorem runVisits_cons_of_true {n : Node} {l : List Node} {s s1 : MemoryAnalysisVisitor}
    (h : visit n s = (true, s1)) : runVisits (n :: l) s = runVisits l s1 := by
  simp [runVisits, h]

/-! ## What the callbacks preserve -/

theorem NoUnknown_insert {m : MemStateMap} (k : Int) (h : NoUnknown m) :
    NoUnknown (m.insert k .OWNED) := by
  unfold MemStateMap.insert
  split
  · exact h
  · intro e he
    rcases List.mem_cons.1 he with rfl | he
    · simp
    · exact h e he

theorem NoUnknown_assign {m : MemStateMap} (k : Int) (v : PointerState)
    (hv : v ≠ .UNKNOWN) (h : NoUnknown m) : NoUnknown (m.assign k v) := by
  induction m with
  | nil => simpa [MemStateMap.assign] using h
  | cons e rest ih =>
    obtain ⟨k0, v0⟩ := e
    have hrest : NoUnknown rest := fun e he => h e (List.mem_cons_of_mem _ he)
    have hhead : v0 ≠ .UNKNOWN := h (k0, v0) (List.mem_cons_self _ _)
    unfold MemStateMap.assign
    split
    · intro e he
      rcases List.mem_cons.1 he with rfl | he
      · exact hv
      · exact hrest e he
    · intro e he
      rcases List.mem_cons.1 he with rfl | he
      · exact hhead
      · exact ih hrest e he

theorem VisitCallExpr_NoUnknown (dc : Option String) (args : List Node)
    (s : MemoryAnalysisVisitor) (h : NoUnknown s.stateMap) :
    NoUnknown (VisitCallExpr dc args s).2.stateMap := by
  unfold VisitCallExpr
  repeat' split
  all_goals
    first
    | exact h
    | exact NoUnknown_insert _ h
    | exact NoUnknown_assign _ _ (by decide) h

theorem visit_stateMap_of_not_call (m : Node) (s : MemoryAnalysisVisitor)
    (h : ∀ dc callee args, m ≠ .CallExpr dc callee args) :
    (visit m s).2.stateMap = s.stateMap := by
  cases m with
  | CallExpr dc callee args => exact absurd rfl (h dc callee args)
  | BinaryOperator op lhs rhs => exact (VisitBinaryOperator_frame op lhs rhs s).1
  | ReturnStmt r => exact (VisitReturnStmt_frame r s).1
  | Var v init => exact VisitVarDecl_stateMap v s
  | DeclRefExpr _ => rfl
  | ParenExpr _ => rfl
  | ImplicitCastExpr _ => rfl
  | UnaryOperator _ _ => rfl
  | ArraySubscriptExpr _ _ => rfl
  | Other _ => rfl

theorem visit_NoUnknown (m : Node) (s : MemoryAnalysisVisitor)
    (h : NoUnknown s.stateMap) : NoUnknown (visit m s).2.stateMap := by
  cases m with
  | CallExpr dc callee args => exact VisitCallExpr_NoUnknown dc args s h
  | BinaryOperator op lhs rhs => rw [visit_stateMap_of_not_call _ _ (by simp)]; exact h
  | ReturnStmt r => rw [visit_stateMap_of_not_call _ _ (by simp)]; exact h
  | Var v init => rw [visit_stateMap_of_not_call _ _ (by simp)]; exact h
  | DeclRefExpr _ => exact h
  | ParenExpr _ => exact h
  | ImplicitCastExpr _ => exact h
  | UnaryOperator _ _ => exact h
  | ArraySubscriptExpr _ _ => exact h
  | Other _ => exact h

theorem at?_insert_of_some {m : MemStateMap} {k : Int} {w : PointerState} (k' : Int)
    (v : PointerState) (h : m.at? k = some w) : (m.insert k' v).at? k = some w := by
  by_cases hk : k = k'
  · subst hk; rw [MemStateMap.insert_of_some m k v w h]; exact h
  · rw [MemStateMap.at?_insert_ne m k' k v hk]; exact h

theorem visit_outs (m : Node) (s : MemoryAnalysisVisitor) : (visit m s).2.outs = s.outs := by
  cases m with
  | CallExpr dc callee args =>
    simp only [visit]; unfold VisitCallExpr
    repeat' split
    all_goals rfl
  | BinaryOperator op lhs rhs =>
    simp only [visit]; unfold VisitBinaryOperator checkDeref checkIndex
    repeat' split
    all_goals rfl
  | ReturnStmt r =>
    simp only [visit]; unfold VisitReturnStmt
    repeat' split
    all_goals rfl
  | Var v init =>
    simp only [visit]; unfold VisitVarDecl
    split <;> rfl
  | DeclRefExpr _ => rfl
  | ParenExpr _ => rfl
  | ImplicitCastExpr _ => rfl
  | UnaryOperator _ _ => rfl
  | ArraySubscriptExpr _ _ => rfl
  | Other _ => rfl

theorem subnodesList_quiet :
    ∀ l : List Node, l.all quiet = true → ∀ m ∈ subnodesList l, visitsNothing m = true
  | [], _, m, hm => by simp [subnodesList] at hm
  | n :: rest, h, m, hm => by
    simp only [List.all_cons, Bool.and_eq_true] at h
    simp only [subnodesList, List.mem_append] at hm
    rcases hm with hm | hm
    · exact List.all_eq_true.1 h.1 m hm
    · exact subnodesList_quiet rest h.2 m hm

theorem at?_eq_none_iff (m : MemStateMap) (k : Int) :
    m.at? k = none ↔ k ∉ m.map Prod.fst := by
  induction m with
  | nil => simp [MemStateMap.at?]
  | cons e rest ih =>
    obtain ⟨k0, v0⟩ := e
    by_cases hk : k0 = k
    · simp [MemStateMap.at?, hk]
    · have hk' : ¬ k = k0 := fun h => hk h.symm
      simp [MemStateMap.at?, hk, hk', ih]

theorem keys_assign (m : MemStateMap) (k : Int) (v : PointerState) :
    (m.assign k v).map Prod.fst = m.map Prod.fst := by
  induction m with
  | nil => rfl
  | cons e rest ih =>
    obtain ⟨k0, v0⟩ := e
    unfold MemStateMap.assign
    split
    · rfl
    · simp [ih]

theorem NodupKeys_assign {m : MemStateMap} (k : Int) (v : PointerState) (h : NodupKeys m) :
    NodupKeys (m.assign k v) := by
  unfold NodupKeys; rw [keys_assign]; exact h

theorem NodupKeys_insert {m : MemStateMap} (k : Int) (v : PointerState) (h : NodupKeys m) :
    NodupKeys (m.insert k v) := by
  unfold MemStateMap.insert
  split
  · exact h
  · next hk =>
    unfold NodupKeys
    simp only [List.map_cons, List.nodup_cons]
    exact ⟨(at?_eq_none_iff m k).1 hk, h⟩

theorem at?_of_mem {m : MemStateMap} (h : NodupKeys m) {k : Int} {v : PointerState}
    (hm : (k, v) ∈ m) : m.at? k = some v := by
  induction m with
  | nil => cases hm
  | cons e rest ih =>
    obtain ⟨k0, v0⟩ := e
    unfold NodupKeys at h
    simp only [List.map_cons, List.nodup_cons] at h
    rcases List.mem_cons.1 hm with heq | hm
    · cases heq; simp [MemStateMap.at?]
    · have hk : k0 ≠ k := by
        intro hk; subst hk
        exact h.1 (List.mem_map.2 ⟨(k0, v), hm, rfl⟩)
      simp only [MemStateMap.at?, hk, if_false]
      exact ih h.2 hm

theorem checkMemStateLoop_allFree (m : MemStateMap) (s : MemoryAnalysisVisitor)
    (h : ∀ e ∈ m, e.2 = PointerState.FREE) : checkMemStateLoop m s = (true, s) := by
  induction m with
  | nil => rfl
  | cons e rest ih =>
    obtain ⟨k0, v0⟩ := e
    have h0 : v0 = .FREE := h (k0, v0) (List.mem_cons_self _ _)
    subst h0
    simp only [checkMemStateLoop]
    exact ih (fun e he => h e (List.mem_cons_of_mem _ he))

/-- The callbacks of an allocating declaration, from a state in which the
declared variable has no entry. -/
theorem runVisits_alloc (v : VarDecl) (init : Node) (s : MemoryAnalysisVisitor)
    (hwf : (Step.alloc v init).wellFormed = true) (hid : v.id ≠ 0)
    (habs : s.stateMap.at? v.id = none) :
    runVisits (subnodes (Step.alloc v init).node) s
      = (true, { s with currVar := v.id, stateMap := (v.id, .OWNED) :: s.stateMap }) := by
  simp only [Step.wellFormed, Bool.and_eq_true] at hwf
  obtain ⟨hinit, hshape⟩ := hwf
  obtain ⟨ws, hws, hquiet⟩ := subnodes_IgnoreParenImpCasts init
  split at hshape
  · next fn callee args hcall =>
    simp only [Bool.and_eq_true, Bool.or_eq_true, beq_iff_eq] at hshape
    obtain ⟨⟨hfn, hcq⟩, haq⟩ := hshape
    rw [hcall, subnodes] at hws
    have hvis : visit (.Var v (some init)) s = (true, { s with currVar := v.id }) := by
      simp [visit, VisitVarDecl, hinit]
    have hvc : visit (.CallExpr (some fn) callee args) { s with currVar := v.id }
        = (true, { s with currVar := v.id, stateMap := (v.id, .OWNED) :: s.stateMap }) := by
      simp [visit, VisitCallExpr_alloc fn hfn, hid, MemStateMap.insert, habs]
    have hrest : ∀ m ∈ subnodes callee ++ subnodesList args, visitsNothing m = true := by
      intro m hm
      rcases List.mem_append.1 hm with hm | hm
      · exact List.all_eq_true.1 hcq m hm
      · exact subnodesList_quiet args haq m hm
    have hlist : subnodes (Step.alloc v init).node
        = .Other [.Var v (some init)] :: .Var v (some init) ::
            (ws ++ .CallExpr (some fn) callee args ::
              (subnodes callee ++ subnodesList args)) := by
      simp [Step.node, subnodes, subnodesList, hws]
    have hother : visit (.Other [.Var v (some init)]) s = (true, s) := rfl
    rw [hlist, runVisits_cons_of_true hother, runVisits_cons_of_true hvis,
      runVisits_append, runVisits_quiet ws _ (fun m hm => (hquiet m hm).1)]
    simp only [if_true]
    rw [runVisits_cons_of_true hvc]
    exact runVisits_quiet _ _ hrest
  · simp at hshape

/-- The callbacks of a `free` call, from a state in which the freed variable
is `OWNED`. -/
theorem runVisits_free (v : VarDecl) (callee : Node) (args : List Node)
    (s : MemoryAnalysisVisitor) (hwf : (Step.free v callee args).wellFormed = true)
    (hown : s.stateMap.at? v.id = some .OWNED) :
    runVisits (subnodes (Step.free v callee args).node) s
      = (true, { s with stateMap := s.stateMap.assign v.id .FREE }) := by
  simp only [Step.wellFormed, Bool.and_eq_true, beq_iff_eq] at hwf
  obtain ⟨⟨harg, hcq⟩, haq⟩ := hwf
  have hvc : visit (.CallExpr (some "free") callee args) s
      = (true, { s with stateMap := s.stateMap.assign v.id .FREE }) := by
    simp [visit, VisitCallExpr_free, harg, hown]
  have hrest : ∀ m ∈ subnodes callee ++ subnodesList args, visitsNothing m = true := by
    intro m hm
    rcases List.mem_append.1 hm with hm | hm
    · exact List.all_eq_true.1 hcq m hm
    · exact subnodesList_quiet args haq m hm
  have hlist : subnodes (Step.free v callee args).node
      = .CallExpr (some "free") callee args :: (subnodes callee ++ subnodesList args) := by
    simp [Step.node, subnodes]
  rw [hlist, runVisits_cons_of_true hvc]
  exact runVisits_quiet _ _ hrest

theorem allocIds_append (a b : List Step) : allocIds (a ++ b) = allocIds a ++ allocIds b := by
  simp [allocIds, List.filterMap_append]

theorem freeIds_append (a b : List Step) : freeIds (a ++ b) = freeIds a ++ freeIds b := by
  simp [freeIds, List.filterMap_append]

/-- In a prefix of a disciplined unit, what has been freed has been declared. -/
theorem freeIds_prefix_subset {steps pre post : List Step} (hd : Disciplined steps)
    (hsplit : steps = pre ++ post) {k : Int} (hk : k ∈ freeIds pre) : k ∈ allocIds pre := by
  obtain ⟨st, hst, hfree⟩ := List.mem_filterMap.1 hk
  obtain ⟨a, b, hab⟩ := List.append_of_mem hst
  have h := hd.after a (b ++ post) st k (by rw [hsplit, hab]; simp) hfree
  rw [hab, allocIds_append]
  exact List.mem_append_left _ h

theorem Tracks_alloc {steps pre post : List Step} {v : VarDecl} {init : Node}
    {s : MemoryAnalysisVisitor} (hd : Disciplined steps)
    (hsplit : steps = pre ++ Step.alloc v init :: post) (ht : Tracks pre s) :
    s.stateMap.at? v.id = none ∧
    Tracks (pre ++ [Step.alloc v init])
      { s with currVar := v.id, stateMap := (v.id, .OWNED) :: s.stateMap } := by
  obtain ⟨herr, hout, hnd, hat⟩ := ht
  have hdist := hd.distinct
  rw [hsplit, allocIds_append] at hdist
  have hnew : v.id ∉ allocIds pre := by
    intro h
    have := (List.nodup_append.1 hdist).2.2 h
    exact this (by simp [allocIds, Step.allocId])
  have hnf : v.id ∉ freeIds pre := fun h =>
    hnew (@freeIds_prefix_subset steps pre (Step.alloc v init :: post) hd hsplit v.id h)
  have habs : s.stateMap.at? v.id = none := by rw [hat, if_neg hnew]
  refine ⟨habs, herr, hout, ?_, ?_⟩
  · unfold NodupKeys
    simp only [List.map_cons, List.nodup_cons]
    exact ⟨(at?_eq_none_iff _ _).1 habs, hnd⟩
  · intro k
    have ha : allocIds (pre ++ [Step.alloc v init]) = allocIds pre ++ [v.id] := by
      simp [allocIds_append, allocIds, Step.allocId]
    have hf : freeIds (pre ++ [Step.alloc v init]) = freeIds pre := by
      simp [freeIds_append, freeIds, Step.freeId]
    rw [ha, hf]
    by_cases hk : v.id = k
    · subst hk
      simp [MemStateMap.at?, hnf]
    · have hk' : ¬ k = v.id := fun h => hk h.symm
      simp [MemStateMap.at?, hk, hk', hat]

theorem Tracks_free {steps pre post : List Step} {v : VarDecl} {callee : Node}
    {args : List Node} {s : MemoryAnalysisVisitor} (hd : Disciplined steps)
    (hsplit : steps = pre ++ Step.free v callee args :: post) (ht : Tracks pre s) :
    s.stateMap.at? v.id = some .OWNED ∧
    Tracks (pre ++ [Step.free v callee args])
      { s with stateMap := s.stateMap.assign v.id .FREE } := by
  obtain ⟨herr, hout, hnd, hat⟩ := ht
  have hdecl : v.id ∈ allocIds pre := hd.after pre post _ v.id hsplit rfl
  have hfo := hd.freedOnce
  rw [hsplit, freeIds_append] at hfo
  have hnf : v.id ∉ freeIds pre := by
    intro h
    have := (List.nodup_append.1 hfo).2.2 h
    exact this (by simp [freeIds, Step.freeId])
  have hown : s.stateMap.at? v.id = some .OWNED := by rw [hat, if_pos hdecl, if_neg hnf]
  refine ⟨hown, herr, hout, NodupKeys_assign _ _ hnd, ?_⟩
  intro k
  have ha : allocIds (pre ++ [Step.free v callee args]) = allocIds pre := by
    simp [allocIds_append, allocIds, Step.allocId]
  have hf : freeIds (pre ++ [Step.free v callee args]) = freeIds pre ++ [v.id] := by
    simp [freeIds_append, freeIds, Step.freeId]
  rw [ha, hf]
  by_cases hk : k = v.id
  · subst hk
    show (s.stateMap.assign v.id .FREE).at? v.id = _
    rw [MemStateMap.at?_assign_self _ _ _ (by simp [hown])]
    simp [hdecl]
  · show (s.stateMap.assign v.id .FREE).at? k = _
    rw [MemStateMap.at?_assign_ne _ _ _ _ hk, hat]
    simp [hk]

/-- The run of the callbacks over the remaining steps of a disciplined unit. -/
theorem runVisits_steps {steps : List Step} (hd : Disciplined steps)
    (hnz : (0 : Int) ∉ allocIds steps) :
    ∀ (post pre : List Step) (s : MemoryAnalysisVisitor),
      steps = pre ++ post → Tracks pre s →
      ∃ s', runVisits (subnodesList (post.map Step.node)) s = (true, s') ∧ Tracks steps s'
  | [], pre, s, hsplit, ht => by
    refine ⟨s, rfl, ?_⟩
    rw [hsplit, List.append_nil]; exact ht
  | st :: post, pre, s, hsplit, ht => by
    have hmem : st ∈ steps := by rw [hsplit]; simp
    have hwf := hd.shape st hmem
    have hsplit' : steps = (pre ++ [st]) ++ post := by rw [hsplit]; simp
    simp only [List.map_cons, subnodesList, runVisits_append]
    cases st with
    | alloc v init =>
      have hid : v.id ≠ 0 := by
        intro h0
        apply hnz
        rw [hsplit, allocIds_append, ← h0]
        exact List.mem_append_right _ (by simp [allocIds, Step.allocId])
      obtain ⟨habs, ht'⟩ := Tracks_alloc hd hsplit ht
      rw [runVisits_alloc v init s hwf hid habs]
      simp only [if_true]
      exact runVisits_steps hd hnz post _ _ hsplit' ht'
    | free v callee args =>
      obtain ⟨hown, ht'⟩ := Tracks_free hd hsplit ht
      rw [runVisits_free v callee args s hwf hown]
      simp only [if_true]
      exact runVisits_steps hd hnz post _ _ hsplit' ht'

/-! ## Invariants of a traversal, under either policy -/

mutual
theorem traverse_invariant (P : MemoryAnalysisVisitor → Prop)
    (hP : ∀ m s, P s → P (visit m s).2) (pol : RejectPolicy) :
    ∀ (n : Node) (s : MemoryAnalysisVisitor), P s → P (traverse pol n s).2
  | .DeclRefExpr _, s, hs => by simpa [traverse] using hs
  | .ParenExpr sub, s, hs => by
    simp only [traverse]; exact traverse_invariant P hP pol sub s hs
  | .ImplicitCastExpr sub, s, hs => by
    simp only [traverse]; exact traverse_invariant P hP pol sub s hs
  | .UnaryOperator _ sub, s, hs => by
    simp only [traverse]; exact traverse_invariant P hP pol sub s hs
  | .ArraySubscriptExpr base idx, s, hs => by
    have h1 := traverse_invariant P hP pol base s hs
    simp only [traverse]
    rcases hEs1 : traverse pol base s with ⟨b, s1⟩
    rw [hEs1] at h1
    simp only [] at h1
    cases b
    · cases pol
      · exact h1
      · exact traverse_invariant P hP _ idx s1 h1
    · exact traverse_invariant P hP pol idx s1 h1
  | .BinaryOperator op lhs rhs, s, hs => by
    have h0 := hP (.BinaryOperator op lhs rhs) s hs
    simp only [visit] at h0
    simp only [traverse]
    rcases hEs0 : VisitBinaryOperator op lhs rhs s with ⟨b0, s0⟩
    rw [hEs0] at h0
    simp only [] at h0
    cases b0
    · exact h0
    · simp only []
      have h1 := traverse_invariant P hP pol lhs s0 h0
      rcases hEs1 : traverse pol lhs s0 with ⟨b, s1⟩
      rw [hEs1] at h1
      simp only [] at h1
      cases b
      · cases pol
        · exact h1
        · exact traverse_invariant P hP _ rhs s1 h1
      · exact traverse_invariant P hP pol rhs s1 h1
  | .CallExpr dc callee args, s, hs => by
    have h0 := hP (.CallExpr dc callee args) s hs
    simp only [visit] at h0
    simp only [traverse]
    rcases hEs0 : VisitCallExpr dc args s with ⟨b0, s0⟩
    rw [hEs0] at h0
    simp only [] at h0
    cases b0
    · exact h0
    · simp only []
      have h1 := traverse_invariant P hP pol callee s0 h0
      rcases hEs1 : traverse pol callee s0 with ⟨b, s1⟩
      rw [hEs1] at h1
      simp only [] at h1
      cases b
      · cases pol
        · exact h1
        · exact traverseList_invariant P hP _ args s1 h1
      · exact traverseList_invariant P hP pol args s1 h1
  | .ReturnStmt none, s, hs => by simpa [traverse, VisitReturnStmt] using hs
  | .ReturnStmt (some e), s, hs => by
    have h0 := hP (.ReturnStmt (some e)) s hs
    simp only [visit] at h0
    simp only [traverse]
    rcases hEs0 : VisitReturnStmt (some e) s with ⟨b0, s0⟩
    rw [hEs0] at h0
    simp only [] at h0
    cases b0
    · exact h0
    · exact traverse_invariant P hP pol e s0 h0
  | .Var v none, s, hs => by
    have h0 := hP (.Var v none) s hs
    simp only [visit] at h0
    simp only [traverse]
    rcases hEs0 : VisitVarDecl v s with ⟨b0, s0⟩
    rw [hEs0] at h0
    simp only [] at h0
    cases b0 <;> exact h0
  | .Var v (some e), s, hs => by
    have h0 := hP (.Var v (some e)) s hs
    simp only [visit] at h0
    simp only [traverse]
    rcases hEs0 : VisitVarDecl v s with ⟨b0, s0⟩
    rw [hEs0] at h0
    simp only [] at h0
    cases b0
    · exact h0
    · exact traverse_invariant P hP pol e s0 h0
  | .Other children, s, hs => by
    simp only [traverse]; exact traverseList_invariant P hP pol children s hs
theorem traverseList_invariant (P : MemoryAnalysisVisitor → Prop)
    (hP : ∀ m s, P s → P (visit m s).2) (pol : RejectPolicy) :
    ∀ (l : List Node) (s : MemoryAnalysisVisitor), P s → P (traverseList pol l s).2
  | [], s, hs => by simpa [traverseList] using hs
  | n :: rest, s, hs => by
    have h1 := traverse_invariant P hP pol n s hs
    simp only [traverseList]
    rcases hEs1 : traverse pol n s with ⟨b, s1⟩
    rw [hEs1] at h1
    simp only [] at h1
    cases b
    · cases pol
      · exact h1
      · exact traverseList_invariant P hP _ rest s1 h1
    · exact traverseList_invariant P hP pol rest s1 h1
end

theorem traverse_outs (pol : RejectPolicy) (n : Node) (s : MemoryAnalysisVisitor) :
    (traverse pol n s).2.outs = s.outs :=
  traverse_invariant (fun s' => s'.outs = s.outs)
    (fun m s' hs' => (visit_outs m s').trans hs') pol n s rfl

theorem subnodes_head (n : Node) : ∃ tl : List Node, subnodes n = n :: tl := by
  cases n with
  | ReturnStmt r => cases r <;> exact ⟨_, by rw [subnodes]⟩
  | Var v init => cases init <;> exact ⟨_, by rw [subnodes]⟩
  | DeclRefExpr _ => exact ⟨_, by rw [subnodes]⟩
  | ParenExpr _ => exact ⟨_, by rw [subnodes]⟩
  | ImplicitCastExpr _ => exact ⟨_, by rw [subnodes]⟩
  | UnaryOperator _ _ => exact ⟨_, by rw [subnodes]⟩
  | ArraySubscriptExpr _ _ => exact ⟨_, by rw [subnodes]⟩
  | BinaryOperator _ _ _ => exact ⟨_, by rw [subnodes]⟩
  | CallExpr _ _ _ => exact ⟨_, by rw [subnodes]⟩
  | Other _ => exact ⟨_, by rw [subnodes]⟩

/-- A node whose own callback returns `false` is not descended into. -/
theorem traverse_of_visit_false (pol : RejectPolicy) (n : Node) (s : MemoryAnalysisVisitor)
    (h : (visit n s).1 = false) : traverse pol n s = visit n s := by
  have hrun : runVisits (subnodes n) s = visit n s := by
    obtain ⟨tl, htl⟩ := subnodes_head n
    rw [htl, runVisits]
    rcases hv : visit n s with ⟨b, s1⟩
    rw [hv] at h
    cases b
    · rfl
    · cases h
  have habort : traverse .abortTraversal n s = visit n s := by rw [traverse_abort, hrun]
  cases pol with
  | abortTraversal => exact habort
  | skipSubtree =>
    have h1 := (traverse_skip n s).1
    rw [habort, h] at h1
    -- the skipping traversal fails, and stops at the same callback
    cases n with
    | BinaryOperator op lhs rhs =>
      simp only [visit] at h ⊢
      rcases hv : VisitBinaryOperator op lhs rhs s with ⟨b, s1⟩
      rw [hv] at h; cases b
      · simp [traverse, hv]
      · cases h
    | CallExpr dc callee args =>
      simp only [visit] at h ⊢
      rcases hv : VisitCallExpr dc args s with ⟨b, s1⟩
      rw [hv] at h; cases b
      · simp [traverse, hv]
      · cases h
    | ReturnStmt r =>
      simp only [visit] at h ⊢
      rcases hv : VisitReturnStmt r s with ⟨b, s1⟩
      rw [hv] at h; cases b
      · simp [traverse, hv]
      · cases h
    | Var v init =>
      simp only [visit] at h ⊢
      rcases hv : VisitVarDecl v s with ⟨b, s1⟩
      rw [hv] at h; cases b
      · simp [traverse, hv]
      · cases h
    | DeclRefExpr _ => cases h
    | ParenExpr _ => cases h
    | ImplicitCastExpr _ => cases h
    | UnaryOperator _ _ => cases h
    | ArraySubscriptExpr _ _ => cases h
    | Other _ => cases h

theorem checkMemStateLoop_cases (m : MemStateMap) (s : MemoryAnalysisVisitor) :
    ((∀ e ∈ m, e.2 = PointerState.FREE) ∧ checkMemStateLoop m s = (true, s)) ∨
    ((¬ ∀ e ∈ m, e.2 = PointerState.FREE) ∧
      (checkMemStateLoop m s
          = (false, printError false "There is potentially unfreed memory" s) ∨
        checkMemStateLoop m s = (false, printError false "Memory state is unknown" s))) := by
  induction m with
  | nil => exact Or.inl ⟨by simp, rfl⟩
  | cons e rest ih =>
    obtain ⟨k0, v0⟩ := e
    cases v0 with
    | OWNED =>
      exact Or.inr ⟨fun h => by simpa using h (k0, .OWNED) (List.mem_cons_self _ _),
        Or.inl rfl⟩
    | UNKNOWN =>
      exact Or.inr ⟨fun h => by simpa using h (k0, .UNKNOWN) (List.mem_cons_self _ _),
        Or.inr rfl⟩
    | FREE =>
      simp only [checkMemStateLoop]
      rcases ih with ⟨h1, h2⟩ | ⟨h1, h2⟩
      · refine Or.inl ⟨?_, h2⟩
        intro e he
        rcases List.mem_cons.1 he with rfl | he
        · rfl
        · exact h1 e he
      · exact Or.inr ⟨fun h => h1 (fun e he => h e (List.mem_cons_of_mem _ he)), h2⟩

theorem checkMemState_outs (s : MemoryAnalysisVisitor) : (checkMemState s).2.outs = s.outs := by
  unfold checkMemState
  rcases checkMemStateLoop_cases s.stateMap s with ⟨-, h⟩ | ⟨-, h | h⟩ <;> rw [h] <;> rfl

/-! ## Traversal of single statements -/

theorem traverseList_cons_of_true {pol : RejectPolicy} {n : Node} {l : List Node}
    {s s1 : MemoryAnalysisVisitor} (h : traverse pol n s = (true, s1)) :
    traverseList pol (n :: l) s = traverseList pol l s1 := by
  rw [traverseList, h]

theorem traverseList_cons_of_false {pol : RejectPolicy} {n : Node} {s s1 : MemoryAnalysisVisitor}
    (h : traverse pol n s = (false, s1)) : traverseList pol [n] s = (false, s1) := by
  rw [traverseList, h]
  cases pol <;> rfl

theorem traverse_quiet (pol : RejectPolicy) (n : Node) (s : MemoryAnalysisVisitor)
    (h : ∀ m ∈ subnodes n, visitsNothing m = true) : traverse pol n s = (true, s) := by
  have hrun := runVisits_quiet (subnodes n) s h
  rw [traverse_eq_runVisits pol n s (by rw [hrun]), hrun]

theorem subnodes_of_unwrapExpr {e : Node} {v : VarDecl} (h : unwrapExpr (some e) = some v) :
    ∀ m ∈ subnodes e, visitsNothing m = true := by
  obtain ⟨ws, hws, hquiet⟩ := subnodes_IgnoreParenImpCasts e
  rw [IgnoreParenImpCasts_of_unwrapExpr h, subnodes] at hws
  intro m hm
  rw [hws] at hm
  rcases List.mem_append.1 hm with hm | hm
  · exact (hquiet m hm).1
  · rw [List.mem_singleton.1 hm]; rfl

/-- The traversal of an allocating declaration, from a state in which the
declared variable has no entry. -/
theorem traverse_alloc (pol : RejectPolicy) (v : VarDecl) (init : Node)
    (s : MemoryAnalysisVisitor) (hwf : (Step.alloc v init).wellFormed = true) (hid : v.id ≠ 0)
    (habs : s.stateMap.at? v.id = none) :
    traverse pol (Step.alloc v init).node s
      = (true, { s with currVar := v.id, stateMap := (v.id, .OWNED) :: s.stateMap }) := by
  have hrun := runVisits_alloc v init s hwf hid habs
  rw [traverse_eq_runVisits pol _ s (by rw [hrun]), hrun]

/-- The traversal of a `free` call on an `OWNED` variable. -/
theorem traverse_free (pol : RejectPolicy) (v : VarDecl) (callee : Node) (args : List Node)
    (s : MemoryAnalysisVisitor) (hwf : (Step.free v callee args).wellFormed = true)
    (hown : s.stateMap.at? v.id = some .OWNED) :
    traverse pol (Step.free v callee args).node s
      = (true, { s with stateMap := s.stateMap.assign v.id .FREE }) := by
  have hrun := runVisits_free v callee args s hwf hown
  rw [traverse_eq_runVisits pol _ s (by rw [hrun]), hrun]

/-- The traversal of a `malloc` or `calloc` call with quiet callee and
arguments, when the cursor is not 0. -/
theorem traverse_alloc_call (pol : RejectPolicy) (fn : String) (callee : Node)
    (args : List Node) (s : MemoryAnalysisVisitor) (hfn : fn = "malloc" ∨ fn = "calloc")
    (hcq : quiet callee = true) (haq : args.all quiet = true) (hcur : s.currVar ≠ 0) :
    traverse pol (.CallExpr (some fn) callee args) s
      = (true, { s with stateMap := s.stateMap.insert s.currVar .OWNED }) := by
  have hrest : ∀ m ∈ subnodes callee ++ subnodesList args, visitsNothing m = true := by
    intro m hm
    rcases List.mem_append.1 hm with hm | hm
    · exact List.all_eq_true.1 hcq m hm
    · exact subnodesList_quiet args haq m hm
  have hv : visit (.CallExpr (some fn) callee args) s
      = (true, { s with stateMap := s.stateMap.insert s.currVar .OWNED }) := by
    simp [visit, VisitCallExpr_alloc fn hfn, hcur]
  have hrun : runVisits (subnodes (.CallExpr (some fn) callee args)) s
      = (true, { s with stateMap := s.stateMap.insert s.currVar .OWNED }) := by
    rw [subnodes, runVisits_cons_of_true hv]
    exact runVisits_quiet _ _ hrest
  rw [traverse_eq_runVisits pol _ s (by rw [hrun]), hrun]

/-! ## Entries are never removed, and never hold `UNKNOWN` -/

theorem mem_of_at? {m : MemStateMap} {k : Int} {v : PointerState} (h : m.at? k = some v) :
    (k, v) ∈ m := by
  induction m with
  | nil => simp [MemStateMap.at?] at h
  | cons e rest ih =>
    obtain ⟨k0, v0⟩ := e
    by_cases hk : k0 = k
    · simp only [MemStateMap.at?, hk, if_true, Option.some.injEq] at h
      rw [hk, h]; exact List.mem_cons_self _ _
    · simp only [MemStateMap.at?, hk, if_false] at h
      exact List.mem_cons_of_mem _ (ih h)

theorem at?_ne_unknown {m : MemStateMap} (hno : NoUnknown m) (k : Int) :
    m.at? k ≠ some .UNKNOWN := fun h => hno _ (mem_of_at? h) rfl

theorem at?_insert_present {m : MemStateMap} {k : Int} (k' : Int) (v : PointerState)
    (h : m.at? k ≠ none) : (m.insert k' v).at? k ≠ none := by
  cases hk : m.at? k with
  | none => exact absurd hk h
  | some w => rw [at?_insert_of_some k' v hk]; simp

theorem at?_assign_present {m : MemStateMap} {k : Int} (k' : Int) (v : PointerState)
    (h : m.at? k ≠ none) : (m.assign k' v).at? k ≠ none :=
  fun h' => h ((MemStateMap.at?_assign_eq_none m k' k v).1 h')

theorem VisitCallExpr_present (dc : Option String) (args : List Node)
    (s : MemoryAnalysisVisitor) (k : Int) (h : s.stateMap.at? k ≠ none) :
    (VisitCallExpr dc args s).2.stateMap.at? k ≠ none := by
  unfold VisitCallExpr
  repeat' split
  all_goals
    first
    | exact h
    | exact at?_insert_present _ _ h
    | exact at?_assign_present _ _ h

theorem visit_present (m : Node) (s : MemoryAnalysisVisitor) (k : Int)
    (h : s.stateMap.at? k ≠ none) : (visit m s).2.stateMap.at? k ≠ none := by
  cases m with
  | CallExpr dc callee args => exact VisitCallExpr_present dc args s k h
  | BinaryOperator op lhs rhs => rw [visit_stateMap_of_not_call _ _ (by simp)]; exact h
  | ReturnStmt r => rw [visit_stateMap_of_not_call _ _ (by simp)]; exact h
  | Var v init => rw [visit_stateMap_of_not_call _ _ (by simp)]; exact h
  | DeclRefExpr _ => exact h
  | ParenExpr _ => exact h
  | ImplicitCastExpr _ => exact h
  | UnaryOperator _ _ => exact h
  | ArraySubscriptExpr _ _ => exact h
  | Other _ => exact h

/-- The traversal of `q = malloc(..)` with quiet callee and arguments, when
the cursor is not 0 and `q` is absent from the map or `FREE`: the assignment
is accepted and the call below it writes to the entry of the cursor. -/
theorem traverse_assign_alloc (pol : RejectPolicy) (q : VarDecl) (lhs rhs callee : Node)
    (args : List Node) (fn : String) (s : MemoryAnalysisVisitor)
    (hl : unwrapExpr (some lhs) = some q)
    (hr : IgnoreParenImpCasts rhs = .CallExpr (some fn) callee args)
    (hfn : fn = "malloc" ∨ fn = "calloc")
    (hcq : quiet callee = true) (haq : args.all quiet = true) (hcur : s.currVar ≠ 0)
    (hq : s.stateMap.at? q.id = none ∨ s.stateMap.at? q.id = some .FREE) :
    traverse pol (.BinaryOperator .BO_Assign lhs rhs) s
      = (true, { s with stateMap := s.stateMap.insert s.currVar .OWNED }) := by
  have hal : rhsOwnedAlias q rhs s = false := by
    simp [rhsOwnedAlias, unwrapExpr, hr]
  have hv : VisitBinaryOperator .BO_Assign lhs rhs s = (true, s) := by
    rw [VisitBinaryOperator_var lhs rhs q s hl, hal]
    rcases hq with h | h <;> simp [h]
  rw [traverse, hv]
  simp only [traverse_of_unwrapExpr pol hl]
  rw [traverse_IgnoreParenImpCasts pol rhs, hr,
    traverse_alloc_call pol fn callee args s hfn hcq haq hcur]

/-! ## A traversal after an accepted prefix of its preorder -/

/-- C1. A `free` call whose argument resolves to the variable `v`:
(a) with `v` `OWNED` it writes nothing, returns `true` and the map afterwards
gives `FREE` for `v`; (b) with `v` `FREE` it reports the double free, returns
`false` and leaves map and cursor as they were; (c) with `v` stored as
`UNKNOWN` or absent it reports the unknown state, returns `false` and leaves
map and cursor as they were; and two `free` calls in a row on an `OWNED`
variable write exactly one line, the double free one, by the second call. -/
theorem free_call_transition (s : MemoryAnalysisVisitor) (args args2 : List Node)
    (v v2 : VarDecl) (hv : unwrapExpr args.head? = some v)
    (hv2 : unwrapExpr args2.head? = some v2) (hid : v2.id = v.id) :
    (s.stateMap.at? v.id = some .OWNED →
      VisitCallExpr (some "free") args s
          = (true, { s with stateMap := s.stateMap.assign v.id .FREE }) ∧
        (s.stateMap.assign v.id .FREE).at? v.id = some .FREE) ∧
    (s.stateMap.at? v.id = some .FREE →
      VisitCallExpr (some "free") args s
        = (false, { s with errs := s.errs ++ [⟨true, "Double free of memory"⟩] })) ∧
    (s.stateMap.at? v.id = some .UNKNOWN ∨ s.stateMap.at? v.id = none →
      VisitCallExpr (some "free") args s
        = (false, { s with
            errs := s.errs ++ [⟨true, "Current state of memory is unknown here"⟩] })) ∧
    (s.stateMap.at? v.id = some .OWNED →
      (VisitCallExpr (some "free") args s).1 = true ∧
      (VisitCallExpr (some "free") args s).2.errs = s.errs ∧
      (VisitCallExpr (some "free") args2 (VisitCallExpr (some "free") args s).2).1 = false ∧
      (VisitCallExpr (some "free") args2 (VisitCallExpr (some "free") args s).2).2.errs
        = s.errs ++ [⟨true, "Double free of memory"⟩] ∧
      (VisitCallExpr (some "free") args2 (VisitCallExpr (some "free") args s).2).2.stateMap
        = (VisitCallExpr (some "free") args s).2.stateMap) := by
  refine ⟨?_, ?_, ?_, ?_⟩
  · intro h
    refine ⟨?_, MemStateMap.at?_assign_self _ _ _ (by simp [h])⟩
    rw [VisitCallExpr_free]; simp [hv, h]
  · intro h
    rw [VisitCallExpr_free]; simp [hv, h, printError]
  · intro h
    rw [VisitCallExpr_free]
    rcases h with h | h <;> simp [hv, h, printError]
  · intro h
    have h1 : VisitCallExpr (some "free") args s
        = (true, { s with stateMap := s.stateMap.assign v.id .FREE }) := by
      rw [VisitCallExpr_free]; simp [hv, h]
    have h2 : (s.stateMap.assign v.id .FREE).at? v2.id = some .FREE := by
      rw [hid]; exact MemStateMap.at?_assign_self _ _ _ (by simp [h])
    rw [h1, VisitCallExpr_free]
    simp [hv2, h2, printError]

/-- Witness for C1: `free(p)`, twice, on the map `p ↦ OWNED`, `p` having
identity 7. -/
theorem free_call_transition_witness :
    (VisitCallExpr (some "free") [.DeclRefExpr (.Var ⟨7, 0, true⟩)]
        ⟨[(7, .OWNED)], 7, [], []⟩ = (true, ⟨[(7, .FREE)], 7, [], []⟩)) ∧
    (VisitCallExpr (some "free") [.DeclRefExpr (.Var ⟨7, 0, true⟩)]
      (VisitCallExpr (some "free") [.DeclRefExpr (.Var ⟨7, 0, true⟩)]
        ⟨[(7, .OWNED)], 7, [], []⟩).2).2.errs = [⟨true, "Double free of memory"⟩] :=
  ⟨((free_call_transition ⟨[(7, .OWNED)], 7, [], []⟩
      [.DeclRefExpr (.Var ⟨7, 0, true⟩)] [.DeclRefExpr (.Var ⟨7, 0, true⟩)]
      ⟨7, 0, true⟩ ⟨7, 0, true⟩ rfl rfl rfl).1 (by decide)).1,
   ((free_call_transition ⟨[(7, .OWNED)], 7, [], []⟩
      [.DeclRefExpr (.Var ⟨7, 0, true⟩)] [.DeclRefExpr (.Var ⟨7, 0, true⟩)]
      ⟨7, 0, true⟩ ⟨7, 0, true⟩ rfl rfl rfl).2.2.2 (by decide)).2.2.2.1⟩

/-! ## C2: a declaration with an allocation and no free -/

/-- A declaration with an allocation followed by the `free` of the declared
variable is a disciplined unit. -/
theorem disciplined_alloc_free (v : VarDecl) (init callee : Node) (args : List Node)
    (h1 : (Step.alloc v init).wellFormed = true)
    (h2 : (Step.free v callee args).wellFormed = true) :
    Disciplined [Step.alloc v init, Step.free v callee args] where
  shape := by
    intro st hst
    simp only [List.mem_cons, List.mem_singleton, List.not_mem_nil, or_false] at hst
    rcases hst with rfl | rfl
    · exact h1
    · exact h2
  distinct := by simp [allocIds, Step.allocId]
  freedOnce := by simp [freeIds, Step.freeId]
  freed := by simp [allocIds, freeIds, Step.allocId, Step.freeId]
  after := by
    intro pre post st k hsplit hk
    rcases pre with _ | ⟨a, _ | ⟨b, pre⟩⟩
    · simp only [List.nil_append, List.cons.injEq] at hsplit
      rw [← hsplit.1] at hk
      simp [Step.freeId] at hk
    · simp only [List.cons_append, List.nil_append, List.cons.injEq] at hsplit
      obtain ⟨ha, hb, -⟩ := hsplit
      rw [← hb] at hk
      simp only [Step.freeId, Option.some.injEq] at hk
      rw [← ha, ← hk]
      simp [allocIds, Step.allocId]
    · simp at hsplit

/-- C3. From the empty map and cursor, for every sequence of declarations of
pairwise distinct variables, each initialised by a `malloc` or `calloc` call,
and of `free` calls such that each declared variable is freed exactly once,
after its declaration: every callback returns `true`, nothing is written to
`errs`, the final map gives `FREE` for every declared variable and holds
nothing but `FREE`, the leak check succeeds and `Memory okay!` is printed,
under either traversal policy. The declared variables have the identities
clang gives them, none of which is 0. -/
theorem clean_run (pol : RejectPolicy) (steps : List Step) (hd : Disciplined steps)
    (hnz : (0 : Int) ∉ allocIds steps) :
    ∃ s' : MemoryAnalysisVisitor,
      traverse pol (.Other (steps.map Step.node)) MemoryAnalysisVisitor.init = (true, s') ∧
      runVisits (subnodes (.Other (steps.map Step.node))) MemoryAnalysisVisitor.init
        = (true, s') ∧
      s'.errs = [] ∧ s'.outs = [] ∧
      (∀ k ∈ allocIds steps, s'.stateMap.at? k = some .FREE) ∧
      (∀ e ∈ s'.stateMap, e.2 = .FREE) ∧
      checkMemState s' = (true, s') ∧
      HandleTranslationUnit pol (.Other (steps.map Step.node)) MemoryAnalysisVisitor.init
        = { s' with outs := ["Memory okay!\n"] } := by
  have h0 : Tracks [] MemoryAnalysisVisitor.init :=
    ⟨rfl, rfl, List.nodup_nil, fun k => by simp [allocIds, MemoryAnalysisVisitor.init,
      MemStateMap.at?]⟩
  obtain ⟨s', hrun, herr, hout, hnd, hat⟩ :=
    runVisits_steps hd hnz steps [] MemoryAnalysisVisitor.init rfl h0
  have hrun' : runVisits (subnodes (.Other (steps.map Step.node))) MemoryAnalysisVisitor.init
      = (true, s') := by
    have hother : visit (.Other (steps.map Step.node)) MemoryAnalysisVisitor.init
        = (true, MemoryAnalysisVisitor.init) := rfl
    rw [subnodes, runVisits_cons_of_true hother]
    exact hrun
  have htr : traverse pol (.Other (steps.map Step.node)) MemoryAnalysisVisitor.init
      = (true, s') := by
    rw [traverse_eq_runVisits pol _ _ (by rw [hrun']), hrun']
  have hfree : ∀ k ∈ allocIds steps, s'.stateMap.at? k = some .FREE := by
    intro k hk
    rw [hat, if_pos hk, if_pos (hd.freed k hk)]
  have hall : ∀ e ∈ s'.stateMap, e.2 = PointerState.FREE := by
    rintro ⟨k, v⟩ he
    have h := at?_of_mem hnd he
    rw [hat] at h
    by_cases hk : k ∈ allocIds steps
    · rw [if_pos hk, if_pos (hd.freed k hk)] at h
      cases h; rfl
    · rw [if_neg hk] at h; cases h
  have hcheck : checkMemState s' = (true, s') := checkMemStateLoop_allFree _ _ hall
  refine ⟨s', htr, hrun', herr, hout, hfree, hall, hcheck, ?_⟩
  simp [HandleTranslationUnit, htr, hcheck, hout]

/-- Witness for C3: allocate into `ptr` (identity 1), then `free(ptr)`. -/
theorem clean_run_witness :
    ∃ s' : MemoryAnalysisVisitor,
      traverse .abortTraversal
          (.Other ([Step.alloc ⟨1, 0, true⟩ mallocInit,
            Step.free ⟨1, 0, true⟩ (.ImplicitCastExpr (.DeclRefExpr .NonVar))
              [.ImplicitCastExpr (.DeclRefExpr (.Var ⟨1, 0, true⟩))]].map Step.node))
          MemoryAnalysisVisitor.init = (true, s') ∧
      runVisits (subnodes (.Other ([Step.alloc ⟨1, 0, true⟩ mallocInit,
            Step.free ⟨1, 0, true⟩ (.ImplicitCastExpr (.DeclRefExpr .NonVar))
              [.ImplicitCastExpr (.DeclRefExpr (.Var ⟨1, 0, true⟩))]].map Step.node)))
          MemoryAnalysisVisitor.init = (true, s') ∧
      s'.errs = [] ∧ s'.outs = [] ∧
      (∀ k ∈ allocIds [Step.alloc ⟨1, 0, true⟩ mallocInit,
            Step.free ⟨1, 0, true⟩ (.ImplicitCastExpr (.DeclRefExpr .NonVar))
              [.ImplicitCastExpr (.DeclRefExpr (.Var ⟨1, 0, true⟩))]],
        s'.stateMap.at? k = some .FREE) ∧
      (∀ e ∈ s'.stateMap, e.2 = .FREE) ∧
      checkMemState s' = (true, s') ∧
      HandleTranslationUnit .abortTraversal
          (.Other ([Step.alloc ⟨1, 0, true⟩ mallocInit,
            Step.free ⟨1, 0, true⟩ (.ImplicitCastExpr (.DeclRefExpr .NonVar))
              [.ImplicitCastExpr (.DeclRefExpr (.Var ⟨1, 0, true⟩))]].map Step.node))
          MemoryAnalysisVisitor.init
        = { s' with outs := ["Memory okay!\n"] } :=
  clean_run .abortTraversal
    [Step.alloc ⟨1, 0, true⟩ mallocInit,
      Step.free ⟨1, 0, true⟩ (.ImplicitCastExpr (.DeclRefExpr .NonVar))
        [.ImplicitCastExpr (.DeclRefExpr (.Var ⟨1, 0, true⟩))]]
    (disciplined_alloc_free _ _ _ _ (by decide) (by decide)) (by decide)

/-! ## C4: the realloc call -/

/-- C4. A `realloc` call whose first argument resolves to `a`, with an active
cursor different from `a`: a cursor variable that is `FREE`, or that has no
entry in the map (the `Unknown` of the data model), becomes `OWNED` and nothing
is written; a cursor variable that is `OWNED` gets the "pointing into heap"
line, the call returns `false` and map and cursor stay as they were; in every
case the state of `a` after the call is its state before. On a map that holds
no `UNKNOWN`, as every map the visitor builds, these three cases are all there
are. -/
theorem realloc_call_transition (s : MemoryAnalysisVisitor) (args : List Node) (a : VarDecl)
    (hcur : s.currVar ≠ 0) (ha : unwrapExpr args.head? = some a) (hne : a.id ≠ s.currVar) :
    (s.stateMap.at? s.currVar = some .FREE →
      VisitCallExpr (some "realloc") args s
          = (true, { s with stateMap := s.stateMap.assign s.currVar .OWNED }) ∧
        (s.stateMap.assign s.currVar .OWNED).at? s.currVar = some .OWNED) ∧
    (s.stateMap.at? s.currVar = none →
      VisitCallExpr (some "realloc") args s
          = (true, { s with stateMap := s.stateMap.insert s.currVar .OWNED }) ∧
        (s.stateMap.insert s.currVar .OWNED).at? s.currVar = some .OWNED) ∧
    (s.stateMap.at? s.currVar = some .OWNED →
      VisitCallExpr (some "realloc") args s
        = (false, { s with errs := s.errs ++
            [⟨true, "Cannot reallocate to variable pointing into heap"⟩] })) ∧
    (VisitCallExpr (some "realloc") args s).2.stateMap.at? a.id = s.stateMap.at? a.id ∧
    (NoUnknown s.stateMap →
      s.stateMap.at? s.currVar = some .FREE ∨ s.stateMap.at? s.currVar = none ∨
        s.stateMap.at? s.currVar = some .OWNED) := by
  have hform : VisitCallExpr (some "realloc") args s =
      match (s.stateMap.at? s.currVar).getD .UNKNOWN with
      | .FREE => (true, { s with stateMap := s.stateMap.assign s.currVar .OWNED })
      | .UNKNOWN => (true, { s with stateMap := s.stateMap.insert s.currVar .OWNED })
      | .OWNED =>
        (false, printError true "Cannot reallocate to variable pointing into heap" s) := by
    rw [VisitCallExpr_realloc]; simp [hcur, ha, hne]
  refine ⟨?_, ?_, ?_, ?_, ?_⟩
  · intro h
    exact ⟨by rw [hform]; simp [h], MemStateMap.at?_assign_self _ _ _ (by simp [h])⟩
  · intro h
    exact ⟨by rw [hform]; simp [h], MemStateMap.at?_insert_self_of_none _ _ _ h⟩
  · intro h
    rw [hform]; simp [h, printError]
  · rw [hform]
    cases h : (s.stateMap.at? s.currVar).getD .UNKNOWN with
    | FREE => exact MemStateMap.at?_assign_ne _ _ _ _ hne
    | UNKNOWN => exact MemStateMap.at?_insert_ne _ _ _ _ hne
    | OWNED => rfl
  · intro hno
    have hne' := at?_ne_unknown hno s.currVar
    cases h : s.stateMap.at? s.currVar with
    | none => exact Or.inr (Or.inl rfl)
    | some st =>
      cases st with
      | UNKNOWN => exact absurd h hne'
      | FREE => exact Or.inl rfl
      | OWNED => exact Or.inr (Or.inr rfl)

/-- Witness for C4: `tmp = realloc(ptr, n)` with `ptr` (identity 1) `OWNED`
and `tmp` (identity 2) the cursor, absent from the map. -/
theorem realloc_call_transition_witness :
    VisitCallExpr (some "realloc") [.DeclRefExpr (.Var ⟨1, 0, true⟩)]
        ⟨[(1, .OWNED)], 2, [], []⟩ = (true, ⟨[(2, .OWNED), (1, .OWNED)], 2, [], []⟩) ∧
    MemStateMap.at? (VisitCallExpr (some "realloc") [.DeclRefExpr (.Var ⟨1, 0, true⟩)]
        ⟨[(1, .OWNED)], 2, [], []⟩).2.stateMap 1 = some .OWNED :=
  ⟨((realloc_call_transition ⟨[(1, .OWNED)], 2, [], []⟩ [.DeclRefExpr (.Var ⟨1, 0, true⟩)]
      ⟨1, 0, true⟩ (by decide) rfl (by decide)).2.1 (by decide)).1,
   (realloc_call_transition ⟨[(1, .OWNED)], 2, [], []⟩ [.DeclRefExpr (.Var ⟨1, 0, true⟩)]
      ⟨1, 0, true⟩ (by decide) rfl (by decide)).2.2.2.1⟩

/-! ## C5: `p = realloc(p, n)` -/

/-- C5, counterexample. The body of `try_rellocate_invalid`
(tests/reallocate.c): `ptr` is `OWNED` when `ptr = realloc(ptr, n)` is
reached, the assignment is rejected with the overwrite line, the `realloc`
call below it is not visited, and "Cannot reallocate to same variable." is
written under neither traversal policy. -/
theorem self_realloc_owned_counterexample :
    (traverse .abortTraversal
        (.BinaryOperator .BO_Assign (.DeclRefExpr (.Var ⟨1, 0, true⟩))
          (.ImplicitCastExpr (.CallExpr (some "realloc") (.ImplicitCastExpr (.DeclRefExpr .NonVar))
            [.ImplicitCastExpr (.DeclRefExpr (.Var ⟨1, 0, true⟩)), .Other []])))
        ⟨[(1, .OWNED)], 1, [], []⟩
      = (false, ⟨[(1, .OWNED)], 1,
          [⟨true, "Variable being assigned to has not freed its memory"⟩], []⟩)) ∧
    (traverse .skipSubtree
        (.BinaryOperator .BO_Assign (.DeclRefExpr (.Var ⟨1, 0, true⟩))
          (.ImplicitCastExpr (.CallExpr (some "realloc") (.ImplicitCastExpr (.DeclRefExpr .NonVar))
            [.ImplicitCastExpr (.DeclRefExpr (.Var ⟨1, 0, true⟩)), .Other []])))
        ⟨[(1, .OWNED)], 1, [], []⟩
      = (false, ⟨[(1, .OWNED)], 1,
          [⟨true, "Variable being assigned to has not freed its memory"⟩], []⟩)) ∧
    (⟨true, "Cannot reallocate to same variable."⟩ : ErrorLine) ∉
      (HandleTranslationUnit .abortTraversal
        (.Other [
          .Other [.Var ⟨1, 0, true⟩ (some (.ImplicitCastExpr
            (.CallExpr (some "malloc") (.ImplicitCastExpr (.DeclRefExpr .NonVar)) [.Other []])))],
          .BinaryOperator .BO_Assign (.DeclRefExpr (.Var ⟨1, 0, true⟩))
            (.ImplicitCastExpr
              (.CallExpr (some "realloc") (.ImplicitCastExpr (.DeclRefExpr .NonVar))
                [.ImplicitCastExpr (.DeclRefExpr (.Var ⟨1, 0, true⟩)), .Other []])),
          .CallExpr (some "free") (.ImplicitCastExpr (.DeclRefExpr .NonVar))
            [.ImplicitCastExpr (.DeclRefExpr (.Var ⟨1, 0, true⟩))]])
        MemoryAnalysisVisitor.init).errs ∧
    (⟨true, "Cannot reallocate to same variable."⟩ : ErrorLine) ∉
      (HandleTranslationUnit .skipSubtree
        (.Other [
          .Other [.Var ⟨1, 0, true⟩ (some (.ImplicitCastExpr
            (.CallExpr (some "malloc") (.ImplicitCastExpr (.DeclRefExpr .NonVar)) [.Other []])))],
          .BinaryOperator .BO_Assign (.DeclRefExpr (.Var ⟨1, 0, true⟩))
            (.ImplicitCastExpr
              (.CallExpr (some "realloc") (.ImplicitCastExpr (.DeclRefExpr .NonVar))
                [.ImplicitCastExpr (.DeclRefExpr (.Var ⟨1, 0, true⟩)), .Other []])),
          .CallExpr (some "free") (.ImplicitCastExpr (.DeclRefExpr .NonVar))
            [.ImplicitCastExpr (.DeclRefExpr (.Var ⟨1, 0, true⟩))]])
        MemoryAnalysisVisitor.init).errs := by
  decide

/-- C5, amended. For the statement `p = realloc(p, n)` with `p` the cursor
(identity not 0), under either traversal policy: if `p` is `FREE` or absent
from the map, the assignment is accepted, the `realloc` call below it is
visited and writes "Cannot reallocate to same variable."; if `p` is `OWNED`
the assignment itself is rejected with the overwrite line, and if `p` is
stored as `UNKNOWN` with the unknown-state line, and the call is not visited.
In each case exactly one line is written, the traversal of the statement
returns `false`, and map and cursor are left as they were. -/
theorem self_realloc (pol : RejectPolicy) (s : MemoryAnalysisVisitor) (lhs rhs callee : Node)
    (args : List Node) (p p2 : VarDecl)
    (hl : unwrapExpr (some lhs) = some p)
    (hr : IgnoreParenImpCasts rhs = .CallExpr (some "realloc") callee args)
    (ha : unwrapExpr args.head? = some p2) (hid : p2.id = p.id)
    (hcur : s.currVar = p.id) (hnz : p.id ≠ 0) :
    (s.stateMap.at? p.id = some .FREE ∨ s.stateMap.at? p.id = none →
      traverse pol (.BinaryOperator .BO_Assign lhs rhs) s
        = (false, { s with errs := s.errs ++
            [⟨true, "Cannot reallocate to same variable."⟩] })) ∧
    (s.stateMap.at? p.id = some .OWNED →
      traverse pol (.BinaryOperator .BO_Assign lhs rhs) s
        = (false, { s with errs := s.errs ++
            [⟨true, "Variable being assigned to has not freed its memory"⟩] })) ∧
    (s.stateMap.at? p.id = some .UNKNOWN →
      traverse pol (.BinaryOperator .BO_Assign lhs rhs) s
        = (false, { s with errs := s.errs ++
            [⟨true, "Current state of memory is unknown here"⟩] })) := by
  have hal : rhsOwnedAlias p rhs s = false := by
    simp [rhsOwnedAlias, unwrapExpr, hr]
  have hvis := VisitBinaryOperator_var lhs rhs p s hl
  rw [hal] at hvis
  have hcall : VisitCallExpr (some "realloc") args s
      = (false, printError true "Cannot reallocate to same variable." s) := by
    rw [VisitCallExpr_realloc]
    simp [hcur, hnz, ha, hid]
  refine ⟨?_, ?_, ?_⟩
  · intro h
    have hv : VisitBinaryOperator .BO_Assign lhs rhs s = (true, s) := by
      rw [hvis]; rcases h with h | h <;> simp [h]
    rw [traverse, hv]
    simp only [traverse_of_unwrapExpr pol hl]
    rw [traverse_IgnoreParenImpCasts pol rhs, hr, traverse, hcall]
    simp [printError]
  · intro h
    have hv : VisitBinaryOperator .BO_Assign lhs rhs s
        = (false, printError true "Variable being assigned to has not freed its memory" s) := by
      rw [hvis]; simp [h]
    rw [traverse, hv]
    simp [printError]
  · intro h
    have hv : VisitBinaryOperator .BO_Assign lhs rhs s
        = (false, printError true "Current state of memory is unknown here" s) := by
      rw [hvis]; simp [h]
    rw [traverse, hv]
    simp [printError]

/-- Witness for C5: `p = realloc(p, n)` with `p` (identity 1) `FREE` and the
cursor on `p`. -/
theorem self_realloc_witness :
    traverse .abortTraversal
        (.BinaryOperator .BO_Assign (.DeclRefExpr (.Var ⟨1, 0, true⟩))
          (.ImplicitCastExpr (.CallExpr (some "realloc") (.ImplicitCastExpr (.DeclRefExpr .NonVar))
            [.ImplicitCastExpr (.DeclRefExpr (.Var ⟨1, 0, true⟩)), .Other []])))
        ⟨[(1, .FREE)], 1, [], []⟩
      = (false, ⟨[(1, .FREE)], 1, [⟨true, "Cannot reallocate to same variable."⟩], []⟩) :=
  (self_realloc .abortTraversal ⟨[(1, .FREE)], 1, [], []⟩ (.DeclRefExpr (.Var ⟨1, 0, true⟩))
    (.ImplicitCastExpr (.CallExpr (some "realloc") (.ImplicitCastExpr (.DeclRefExpr .NonVar))
      [.ImplicitCastExpr (.DeclRefExpr (.Var ⟨1, 0, true⟩)), .Other []]))
    (.ImplicitCastExpr (.DeclRefExpr .NonVar))
    [.ImplicitCastExpr (.DeclRefExpr (.Var ⟨1, 0, true⟩)), .Other []]
    ⟨1, 0, true⟩ ⟨1, 0, true⟩ rfl rfl rfl rfl rfl (by decide)).1 (Or.inl (by decide))

/-! ## C6: the allocation call -/

/-- C6, the code at the failing input. With the cursor on a variable that is
`FREE`, a `malloc` call is accepted and the variable stays `FREE`; at the
level of a unit, `int *p = malloc(n); free(p); p = malloc(n);` ends with `p`
`FREE`, no line on `errs`, and `Memory okay!` printed. -/
theorem malloc_on_free_stays_free :
    VisitCallExpr (some "malloc") [.Other []] ⟨[(1, .FREE)], 1, [], []⟩
      = (true, ⟨[(1, .FREE)], 1, [], []⟩) ∧
    VisitCallExpr (some "calloc") [.Other [], .Other []] ⟨[(1, .FREE)], 1, [], []⟩
      = (true, ⟨[(1, .FREE)], 1, [], []⟩) ∧
    (∀ p : RejectPolicy,
      HandleTranslationUnit p
        (.Other [
          .Other [.Var ⟨1, 0, true⟩ (some (.ImplicitCastExpr
            (.CallExpr (some "malloc") (.ImplicitCastExpr (.DeclRefExpr .NonVar)) [.Other []])))],
          .CallExpr (some "free") (.ImplicitCastExpr (.DeclRefExpr .NonVar))
            [.ImplicitCastExpr (.DeclRefExpr (.Var ⟨1, 0, true⟩))],
          .BinaryOperator .BO_Assign (.DeclRefExpr (.Var ⟨1, 0, true⟩))
            (.ImplicitCastExpr
              (.CallExpr (some "malloc") (.ImplicitCastExpr (.DeclRefExpr .NonVar))
                [.Other []]))])
        MemoryAnalysisVisitor.init
      = ⟨[(1, .FREE)], 1, [], ["Memory okay!\n"]⟩) := by
  refine ⟨by decide, by decide, ?_⟩
  intro p
  cases p <;> decide

/-! ## C7: the return statement -/

/-- C7. A return statement whose operand resolves to a variable `v` that has
an entry in the map always writes one line: for `OWNED` and for `FREE` the
callback returns `true` and the two messages differ; for a stored `UNKNOWN` a
third message is written. Map and cursor are left as they were. Two return
statements in a row, the first of an `OWNED` and the second of a `FREE`
variable, are both reported, under either traversal policy. -/
theorem return_validation (s : MemoryAnalysisVisitor) (e : Node) (v : VarDecl)
    (st : PointerState) (hv : unwrapExpr (some e) = some v)
    (hst : s.stateMap.at? v.id = some st) :
    (∃ msg : String,
      (VisitReturnStmt (some e) s).2 = { s with errs := s.errs ++ [⟨true, msg⟩] } ∧
      (st = .OWNED → msg = "Attempted to return pointer to heap memory" ∧
        (VisitReturnStmt (some e) s).1 = true) ∧
      (st = .FREE → msg = "Attempted to return freed pointer to heap memory" ∧
        (VisitReturnStmt (some e) s).1 = true)) ∧
    "Attempted to return pointer to heap memory"
      ≠ "Attempted to return freed pointer to heap memory" ∧
    (∀ (p : RejectPolicy) (e2 : Node) (v2 : VarDecl),
      unwrapExpr (some e2) = some v2 → st = .OWNED → s.stateMap.at? v2.id = some .FREE →
      traverseList p [.ReturnStmt (some e), .ReturnStmt (some e2)] s
        = (true, { s with errs := s.errs ++
            [⟨true, "Attempted to return pointer to heap memory"⟩,
             ⟨true, "Attempted to return freed pointer to heap memory"⟩] })) := by
  refine ⟨?_, by decide, ?_⟩
  · cases st with
    | OWNED =>
      exact ⟨"Attempted to return pointer to heap memory",
        by simp [VisitReturnStmt, hv, hst, printError],
        fun _ => ⟨rfl, by simp [VisitReturnStmt, hv, hst]⟩, fun h => by cases h⟩
    | FREE =>
      exact ⟨"Attempted to return freed pointer to heap memory",
        by simp [VisitReturnStmt, hv, hst, printError],
        (fun h => by cases h), fun _ => ⟨rfl, by simp [VisitReturnStmt, hv, hst]⟩⟩
    | UNKNOWN =>
      exact ⟨"Current state of memory in return is unknown here",
        by simp [VisitReturnStmt, hv, hst, printError],
        (fun h => by cases h), (fun h => by cases h)⟩
  · intro p e2 v2 hv2 ho hf
    subst ho
    have h1 : VisitReturnStmt (some e) s
        = (true, printError true "Attempted to return pointer to heap memory" s) := by
      simp [VisitReturnStmt, hv, hst]
    have h2 : VisitReturnStmt (some e2)
          (printError true "Attempted to return pointer to heap memory" s)
        = (true, printError true "Attempted to return freed pointer to heap memory"
            (printError true "Attempted to return pointer to heap memory" s)) := by
      have : (printError true "Attempted to return pointer to heap memory" s).stateMap.at?
          v2.id = some .FREE := hf
      simp [VisitReturnStmt, hv2, this]
    simp only [traverseList, traverse, h1, h2, traverse_of_unwrapExpr p hv,
      traverse_of_unwrapExpr p hv2]
    simp [printError]

/-- Witness for C7: `return ptr;` with `ptr` (identity 1) `OWNED`. -/
theorem return_validation_witness :
    (VisitReturnStmt (some (.ImplicitCastExpr (.DeclRefExpr (.Var ⟨1, 0, true⟩))))
        ⟨[(1, .OWNED)], 1, [], []⟩).1 = true ∧
    ∃ msg : String,
      (VisitReturnStmt (some (.ImplicitCastExpr (.DeclRefExpr (.Var ⟨1, 0, true⟩))))
          ⟨[(1, .OWNED)], 1, [], []⟩).2 = ⟨[(1, .OWNED)], 1, [⟨true, msg⟩], []⟩ ∧
      msg = "Attempted to return pointer to heap memory" :=
  match (return_validation ⟨[(1, .OWNED)], 1, [], []⟩
    (.ImplicitCastExpr (.DeclRefExpr (.Var ⟨1, 0, true⟩))) ⟨1, 0, true⟩ .OWNED rfl rfl).1 with
  | ⟨msg, h1, h2, _⟩ => ⟨(h2 rfl).2, msg, h1, (h2 rfl).1⟩

/-! ## C8: assignment of one variable to another -/

/-- C8, counterexample. `q = p` with `p` `FREE` and `q` `OWNED`, both of the
same type, writes a line (the overwrite one) although `p` is not `OWNED`. -/
theorem alias_free_rhs_counterexample :
    VisitBinaryOperator .BO_Assign (.DeclRefExpr (.Var ⟨1, 0, false⟩))
        (.ImplicitCastExpr (.DeclRefExpr (.Var ⟨2, 0, true⟩)))
        ⟨[(1, .OWNED), (2, .FREE)], 2, [], []⟩
      = (false, ⟨[(1, .OWNED), (2, .FREE)], 2,
          [⟨true, "Variable being assigned to has not freed its memory"⟩], []⟩) := by
  decide

/-- C8, amended. For `q = p` with `q` and `p` variables of the same type: if
`p` is `OWNED` the aliasing line is written and the callback returns `false`;
if `p` is `FREE`, stored as `UNKNOWN` or absent, no aliasing line is written
and the outcome is that of the overwrite check on `q`: nothing written and
`true` when `q` is `FREE` or absent, the overwrite line and `false` when `q` is
`OWNED`, the unknown-state line and `false` when `q` is stored as `UNKNOWN`.
Map and cursor are never changed. -/
theorem alias_assignment (s : MemoryAnalysisVisitor) (lhs rhs : Node) (q p : VarDecl)
    (hq : unwrapExpr (some lhs) = some q) (hp : unwrapExpr (some rhs) = some p)
    (hty : p.type = q.type) :
    (s.stateMap.at? p.id = some .OWNED →
      VisitBinaryOperator .BO_Assign lhs rhs s
        = (false, { s with errs := s.errs ++
            [⟨true, "Tried to alias pointer into heap memory"⟩] })) ∧
    (s.stateMap.at? p.id ≠ some .OWNED →
      (s.stateMap.at? q.id = some .FREE ∨ s.stateMap.at? q.id = none →
        VisitBinaryOperator .BO_Assign lhs rhs s = (true, s)) ∧
      (s.stateMap.at? q.id = some .OWNED →
        VisitBinaryOperator .BO_Assign lhs rhs s
          = (false, { s with errs := s.errs ++
              [⟨true, "Variable being assigned to has not freed its memory"⟩] })) ∧
      (s.stateMap.at? q.id = some .UNKNOWN →
        VisitBinaryOperator .BO_Assign lhs rhs s
          = (false, { s with errs := s.errs ++
              [⟨true, "Current state of memory is unknown here"⟩] }))) := by
  rw [VisitBinaryOperator_var lhs rhs q s hq]
  refine ⟨?_, ?_⟩
  · intro h
    simp [rhsOwnedAlias, hp, hty, h, printError]
  · intro h
    have hal : rhsOwnedAlias q rhs s = false := by
      simp only [rhsOwnedAlias, hp, hty, if_true]
      cases hs : s.stateMap.at? p.id with
      | none => rfl
      | some st => cases st <;> simp_all
    rw [hal]
    refine ⟨?_, ?_, ?_⟩
    · rintro (h' | h') <;> simp [h']
    · intro h'; simp [h', printError]
    · intro h'; simp [h', printError]

/-- Witness for C8: `q = p` with `p` (identity 2) `OWNED`, `q` (identity 1)
absent from the map. -/
theorem alias_assignment_witness :
    VisitBinaryOperator .BO_Assign (.DeclRefExpr (.Var ⟨1, 0, false⟩))
        (.ImplicitCastExpr (.DeclRefExpr (.Var ⟨2, 0, true⟩))) ⟨[(2, .OWNED)], 2, [], []⟩
      = (false, ⟨[(2, .OWNED)], 2, [⟨true, "Tried to alias pointer into heap memory"⟩], []⟩) :=
  (alias_assignment ⟨[(2, .OWNED)], 2, [], []⟩ (.DeclRefExpr (.Var ⟨1, 0, false⟩))
    (.ImplicitCastExpr (.DeclRefExpr (.Var ⟨2, 0, true⟩))) ⟨1, 0, false⟩ ⟨2, 0, true⟩
    rfl rfl rfl).1 (by decide)

/-! ## C9: writing through a pointer -/

/-- C9, counterexample. `*p = v` and `p[i] = v` with `p` absent from the map
are rejected without any line being written. -/
theorem deref_absent_counterexample :
    MemStateMap.at? [] 1 = none ∧
    VisitBinaryOperator .BO_Assign
        (.UnaryOperator .UO_Deref (.ImplicitCastExpr (.DeclRefExpr (.Var ⟨1, 0, false⟩))))
        (.Other []) ⟨[], 0, [], []⟩ = (false, ⟨[], 0, [], []⟩) ∧
    VisitBinaryOperator .BO_Assign
        (.ArraySubscriptExpr (.ImplicitCastExpr (.DeclRefExpr (.Var ⟨1, 0, false⟩))) (.Other []))
        (.Other []) ⟨[], 0, [], []⟩ = (false, ⟨[], 0, [], []⟩) := by
  decide

/-- C9, amended. For an assignment to `*p` and one to `p[i]`, `p` a variable:
a line is written exactly when `p` is stored as `FREE` or as `UNKNOWN`; the
callback returns `true` exactly when `p` is `OWNED`, and then nothing is
written; with `p` absent from the map the write is rejected and nothing is
written; the two forms return the same result. Map and cursor are never
changed. -/
theorem write_through_pointer (s : MemoryAnalysisVisitor) (lhsD lhsI rhsD rhsI sub base idx : Node)
    (p p2 : VarDecl)
    (hD : IgnoreParenImpCasts lhsD = .UnaryOperator .UO_Deref sub)
    (hI : IgnoreParenImpCasts lhsI = .ArraySubscriptExpr base idx)
    (hp : unwrapExpr (some sub) = some p) (hp2 : unwrapExpr (some base) = some p2)
    (hid : p2.id = p.id) :
    (s.stateMap.at? p.id = some .OWNED →
      VisitBinaryOperator .BO_Assign lhsD rhsD s = (true, s) ∧
      VisitBinaryOperator .BO_Assign lhsI rhsI s = (true, s)) ∧
    (s.stateMap.at? p.id = some .FREE →
      VisitBinaryOperator .BO_Assign lhsD rhsD s
        = (false, { s with errs := s.errs ++ [⟨true, "Tried to deref freed memory"⟩] }) ∧
      VisitBinaryOperator .BO_Assign lhsI rhsI s
        = (false, { s with errs := s.errs ++ [⟨true, "Tried to index into freed memory"⟩] })) ∧
    (s.stateMap.at? p.id = some .UNKNOWN →
      VisitBinaryOperator .BO_Assign lhsD rhsD s
        = (false, { s with errs := s.errs ++
            [⟨true, "Current state of memory is unknown here"⟩] }) ∧
      VisitBinaryOperator .BO_Assign lhsI rhsI s
        = (false, { s with errs := s.errs ++
            [⟨true, "Current state of memory is unknown here"⟩] })) ∧
    (s.stateMap.at? p.id = none →
      VisitBinaryOperator .BO_Assign lhsD rhsD s = (false, s) ∧
      VisitBinaryOperator .BO_Assign lhsI rhsI s = (false, s)) ∧
    ((VisitBinaryOperator .BO_Assign lhsD rhsD s).2.errs ≠ s.errs ↔
      (s.stateMap.at? p.id = some .FREE ∨ s.stateMap.at? p.id = some .UNKNOWN)) ∧
    ((VisitBinaryOperator .BO_Assign lhsI rhsI s).2.errs ≠ s.errs ↔
      (s.stateMap.at? p.id = some .FREE ∨ s.stateMap.at? p.id = some .UNKNOWN)) ∧
    ((VisitBinaryOperator .BO_Assign lhsD rhsD s).1 = true ↔
      s.stateMap.at? p.id = some .OWNED) ∧
    ((VisitBinaryOperator .BO_Assign lhsI rhsI s).1 = true ↔
      s.stateMap.at? p.id = some .OWNED) ∧
    (VisitBinaryOperator .BO_Assign lhsD rhsD s).1
      = (VisitBinaryOperator .BO_Assign lhsI rhsI s).1 := by
  rw [VisitBinaryOperator_deref lhsD rhsD sub s hD, VisitBinaryOperator_index lhsI rhsI base idx s hI]
  simp only [checkDeref, checkIndex, hp, hp2, hid]
  cases h : s.stateMap.at? p.id with
  | none => simp
  | some st => cases st <;> simp [printError]

/-- Witness for C9: `*p = v` and `p[i] = v` with `p` (identity 1) `FREE`. -/
theorem write_through_pointer_witness :
    VisitBinaryOperator .BO_Assign
        (.UnaryOperator .UO_Deref (.ImplicitCastExpr (.DeclRefExpr (.Var ⟨1, 0, true⟩))))
        (.Other []) ⟨[(1, .FREE)], 1, [], []⟩
      = (false, ⟨[(1, .FREE)], 1, [⟨true, "Tried to deref freed memory"⟩], []⟩) ∧
    VisitBinaryOperator .BO_Assign
        (.ArraySubscriptExpr (.ImplicitCastExpr (.DeclRefExpr (.Var ⟨1, 0, true⟩))) (.Other []))
        (.Other []) ⟨[(1, .FREE)], 1, [], []⟩
      = (false, ⟨[(1, .FREE)], 1, [⟨true, "Tried to index into freed memory"⟩], []⟩) :=
  (write_through_pointer ⟨[(1, .FREE)], 1, [], []⟩
    (.UnaryOperator .UO_Deref (.ImplicitCastExpr (.DeclRefExpr (.Var ⟨1, 0, true⟩))))
    (.ArraySubscriptExpr (.ImplicitCastExpr (.DeclRefExpr (.Var ⟨1, 0, true⟩))) (.Other []))
    (.Other []) (.Other []) (.ImplicitCastExpr (.DeclRefExpr (.Var ⟨1, 0, true⟩)))
    (.ImplicitCastExpr (.DeclRefExpr (.Var ⟨1, 0, true⟩))) (.Other [])
    ⟨1, 0, true⟩ ⟨1, 0, true⟩ rfl rfl rfl rfl rfl).2.1 (by decide)

/-! ## C10: variables that have no entry in the map -/

/-- C10, counterexample. `free(x)` on a variable that was never allocated,
hence has no entry in the map, writes the unknown-state line and returns
`false`; `*x = v` on it returns `false`. -/
theorem untracked_free_counterexample :
    MemStateMap.at? MemoryAnalysisVisitor.init.stateMap 5 = none ∧
    VisitCallExpr (some "free") [.ImplicitCastExpr (.DeclRefExpr (.Var ⟨5, 0, false⟩))]
        MemoryAnalysisVisitor.init
      = (false, ⟨[], 0, [⟨true, "Current state of memory is unknown here"⟩], []⟩) ∧
    (VisitBinaryOperator .BO_Assign
        (.UnaryOperator .UO_Deref (.ImplicitCastExpr (.DeclRefExpr (.Var ⟨5, 0, false⟩))))
        (.Other []) MemoryAnalysisVisitor.init).1 = false := by
  decide

/-- C10, amended. For a variable `x` with no entry in the map: `return x`
writes nothing and returns `true`; so does `x = e` unless `e` is an `OWNED`
variable of the type of `x`; so does `q = x` when `q` is `FREE` or absent;
`free(x)` writes the unknown-state line and returns `false`; `*x = v` and
`x[i] = v` return `false` and write nothing; and as long as `x` is not the
cursor, no call gives `x` an entry. -/
theorem untracked_variable (s : MemoryAnalysisVisitor) (x : VarDecl)
    (hx : s.stateMap.at? x.id = none) :
    (∀ e : Node, unwrapExpr (some e) = some x → VisitReturnStmt (some e) s = (true, s)) ∧
    (∀ lhs rhs : Node, unwrapExpr (some lhs) = some x →
      (∀ w : VarDecl, unwrapExpr (some rhs) = some w → w.type = x.type →
        s.stateMap.at? w.id ≠ some .OWNED) →
      VisitBinaryOperator .BO_Assign lhs rhs s = (true, s)) ∧
    (∀ (lhs rhs : Node) (q : VarDecl), unwrapExpr (some lhs) = some q →
      unwrapExpr (some rhs) = some x →
      (s.stateMap.at? q.id = some .FREE ∨ s.stateMap.at? q.id = none) →
      VisitBinaryOperator .BO_Assign lhs rhs s = (true, s)) ∧
    (∀ args : List Node, unwrapExpr args.head? = some x →
      VisitCallExpr (some "free") args s
        = (false, { s with errs := s.errs ++
            [⟨true, "Current state of memory is unknown here"⟩] })) ∧
    (∀ lhs rhs sub : Node, IgnoreParenImpCasts lhs = .UnaryOperator .UO_Deref sub →
      unwrapExpr (some sub) = some x →
      VisitBinaryOperator .BO_Assign lhs rhs s = (false, s)) ∧
    (∀ lhs rhs base idx : Node, IgnoreParenImpCasts lhs = .ArraySubscriptExpr base idx →
      unwrapExpr (some base) = some x →
      VisitBinaryOperator .BO_Assign lhs rhs s = (false, s)) ∧
    (s.currVar ≠ x.id → ∀ (dc : Option String) (args : List Node),
      (VisitCallExpr dc args s).2.stateMap.at? x.id = none) := by
  refine ⟨?_, ?_, ?_, ?_, ?_, ?_, ?_⟩
  · intro e he
    simp [VisitReturnStmt, he, hx]
  · intro lhs rhs hl hr
    have hal : rhsOwnedAlias x rhs s = false := by
      unfold rhsOwnedAlias
      split
      · rfl
      · next w hw =>
        split
        · next hty =>
          have := hr w hw hty
          cases hs : s.stateMap.at? w.id with
          | none => rfl
          | some st => cases st <;> simp_all
        · rfl
    rw [VisitBinaryOperator_var lhs rhs x s hl, hal]
    simp [hx]
  · intro lhs rhs q hl hr hq
    have hal : rhsOwnedAlias q rhs s = false := by
      simp [rhsOwnedAlias, hr, hx]
    rw [VisitBinaryOperator_var lhs rhs q s hl, hal]
    rcases hq with hq | hq <;> simp [hq]
  · intro args ha
    rw [VisitCallExpr_free]; simp [ha, hx, printError]
  · intro lhs rhs sub hl hsub
    rw [VisitBinaryOperator_deref lhs rhs sub s hl]
    simp [checkDeref, hsub, hx]
  · intro lhs rhs base idx hl hb
    rw [VisitBinaryOperator_index lhs rhs base idx s hl]
    simp [checkIndex, hb, hx]
  · intro hc dc args
    exact VisitCallExpr_absent dc args s x.id hc hx

/-- Witness for C10: `return x;` with `x` (identity 5) absent from the map
`p ↦ OWNED`. -/
theorem untracked_variable_witness :
    VisitReturnStmt (some (.ImplicitCastExpr (.DeclRefExpr (.Var ⟨5, 0, false⟩))))
        ⟨[(1, .OWNED)], 1, [], []⟩ = (true, ⟨[(1, .OWNED)], 1, [], []⟩) :=
  (untracked_variable ⟨[(1, .OWNED)], 1, [], []⟩ ⟨5, 0, false⟩ (by decide)).1
    (.ImplicitCastExpr (.DeclRefExpr (.Var ⟨5, 0, false⟩))) rfl

/-! ## C11: what follows a rejected node -/

/-- C11, counterexample. With `a` (identity 1) and `b` (identity 2) both
`FREE`, the traversal of `free(a); free(b);` writes one double-free line, not
two: the callback of `free(a)` returns `false` and `RecursiveASTVisitor` ends
the traversal there. In the same way a declaration `int *v = malloc(n);` that
follows the rejected `free(a)` is not visited and `v` (identity 3) gets no
entry. -/
theorem rejection_ends_traversal_counterexample :
    traverse .abortTraversal
        (.Other [
          .CallExpr (some "free") (.ImplicitCastExpr (.DeclRefExpr .NonVar))
            [.ImplicitCastExpr (.DeclRefExpr (.Var ⟨1, 0, true⟩))],
          .CallExpr (some "free") (.ImplicitCastExpr (.DeclRefExpr .NonVar))
            [.ImplicitCastExpr (.DeclRefExpr (.Var ⟨2, 0, true⟩))]])
        ⟨[(1, .FREE), (2, .FREE)], 2, [], []⟩
      = (false, ⟨[(1, .FREE), (2, .FREE)], 2, [⟨true, "Double free of memory"⟩], []⟩) ∧
    traverse .abortTraversal
        (.Other [
          .CallExpr (some "free") (.ImplicitCastExpr (.DeclRefExpr .NonVar))
            [.ImplicitCastExpr (.DeclRefExpr (.Var ⟨1, 0, true⟩))],
          .Other [.Var ⟨3, 0, true⟩ (some mallocInit)]])
        ⟨[(1, .FREE)], 1, [], []⟩
      = (false, ⟨[(1, .FREE)], 1, [⟨true, "Double free of memory"⟩], []⟩) := by
  decide

/-- C11, amended. Under the contract of `RecursiveASTVisitor` a callback that
returns `false` ends the traversal: the node's own subtree is not descended
into, and no sibling or later statement is visited, so nothing after it
changes the map or writes a line; what follows a node is visited exactly when
the traversal of that node returned `true`. In particular, from a state in
which `a` is `FREE`, a `free(a)` followed by any statements `rest` (a second
`free`, a declaration with a `malloc` initialiser, ...) writes the one
double-free line of `a` and leaves map and cursor as they were. -/
theorem rejection_ends_traversal (s : MemoryAnalysisVisitor) (callee : Node)
    (args rest : List Node) (a : VarDecl)
    (ha : unwrapExpr args.head? = some a) (hfree : s.stateMap.at? a.id = some .FREE) :
    (∀ (n : Node) (s0 : MemoryAnalysisVisitor), (visit n s0).1 = false →
      traverse .abortTraversal n s0 = visit n s0) ∧
    (∀ (n : Node) (l : List Node) (s0 : MemoryAnalysisVisitor),
      (traverse .abortTraversal n s0).1 = false →
      traverseList .abortTraversal (n :: l) s0 = traverse .abortTraversal n s0) ∧
    (∀ (n : Node) (l : List Node) (s0 : MemoryAnalysisVisitor),
      (traverse .abortTraversal n s0).1 = true →
      traverseList .abortTraversal (n :: l) s0
        = traverseList .abortTraversal l (traverse .abortTraversal n s0).2) ∧
    (∀ (tu : Node) (s0 : MemoryAnalysisVisitor),
      traverse .abortTraversal tu s0 = runVisits (subnodes tu) s0) ∧
    traverse .abortTraversal (.Other (.CallExpr (some "free") callee args :: rest)) s
      = (false, { s with errs := s.errs ++ [⟨true, "Double free of memory"⟩] }) := by
  have hstep0 : ∀ (n : Node) (l : List Node) (s0 : MemoryAnalysisVisitor),
      (traverse .abortTraversal n s0).1 = false →
      traverseList .abortTraversal (n :: l) s0 = traverse .abortTraversal n s0 := by
    intro n l s0 h
    rw [traverseList]
    rcases ht : traverse .abortTraversal n s0 with ⟨b, s1⟩
    rw [ht] at h
    cases b
    · rfl
    · cases h
  refine ⟨fun n s0 h => traverse_of_visit_false _ n s0 h, hstep0, ?_, traverse_abort, ?_⟩
  · intro n l s0 h
    rw [traverseList]
    rcases ht : traverse .abortTraversal n s0 with ⟨b, s1⟩
    rw [ht] at h
    cases b
    · cases h
    · rfl
  · have hv : visit (.CallExpr (some "free") callee args) s
        = (false, { s with errs := s.errs ++ [⟨true, "Double free of memory"⟩] }) := by
      simp [visit, VisitCallExpr_free, ha, hfree, printError]
    have ht : traverse .abortTraversal (.CallExpr (some "free") callee args) s
        = (false, { s with errs := s.errs ++ [⟨true, "Double free of memory"⟩] }) := by
      rw [traverse_of_visit_false _ _ _ (by rw [hv]), hv]
    rw [traverse, hstep0 _ _ _ (by rw [ht]), ht]

/-- Witness for C11: `free(a); free(b);` with `a` (identity 1) and `b`
(identity 2) both `FREE`. -/
theorem rejection_ends_traversal_witness :
    traverse .abortTraversal
        (.Other [
          .CallExpr (some "free") (.ImplicitCastExpr (.DeclRefExpr .NonVar))
            [.ImplicitCastExpr (.DeclRefExpr (.Var ⟨1, 0, true⟩))],
          .CallExpr (some "free") (.ImplicitCastExpr (.DeclRefExpr .NonVar))
            [.ImplicitCastExpr (.DeclRefExpr (.Var ⟨2, 0, true⟩))]])
        ⟨[(1, .FREE), (2, .FREE)], 2, [], []⟩
      = (false, ⟨[(1, .FREE), (2, .FREE)], 2, [⟨true, "Double free of memory"⟩], []⟩) :=
  (rejection_ends_traversal ⟨[(1, .FREE), (2, .FREE)], 2, [], []⟩
    (.ImplicitCastExpr (.DeclRefExpr .NonVar))
    [.ImplicitCastExpr (.DeclRefExpr (.Var ⟨1, 0, true⟩))]
    [.CallExpr (some "free") (.ImplicitCastExpr (.DeclRefExpr .NonVar))
      [.ImplicitCastExpr (.DeclRefExpr (.Var ⟨2, 0, true⟩))]]
    ⟨1, 0, true⟩ rfl (by decide)).2.2.2.2

/-- The other reading of the traversal contract, the one of the design
document: under `skipSubtree` the statements that follow a rejected node are
still visited, from the state the rejected node left. With `a` and `b` both
`FREE`, `free(a); free(b);` then writes two double-free lines, and a
declaration with a `malloc` initialiser after a rejected `free` is recorded as
`OWNED`. -/
theorem skipSubtree_visits_what_follows :
    (∀ (n : Node) (l : List Node) (s0 : MemoryAnalysisVisitor),
      (traverseList .skipSubtree (n :: l) s0).2
        = (traverseList .skipSubtree l (traverse .skipSubtree n s0).2).2) ∧
    traverse .skipSubtree
        (.Other [
          .CallExpr (some "free") (.ImplicitCastExpr (.DeclRefExpr .NonVar))
            [.ImplicitCastExpr (.DeclRefExpr (.Var ⟨1, 0, true⟩))],
          .CallExpr (some "free") (.ImplicitCastExpr (.DeclRefExpr .NonVar))
            [.ImplicitCastExpr (.DeclRefExpr (.Var ⟨2, 0, true⟩))]])
        ⟨[(1, .FREE), (2, .FREE)], 2, [], []⟩
      = (false, ⟨[(1, .FREE), (2, .FREE)], 2,
          [⟨true, "Double free of memory"⟩, ⟨true, "Double free of memory"⟩], []⟩) ∧
    traverse .skipSubtree
        (.Other [
          .CallExpr (some "free") (.ImplicitCastExpr (.DeclRefExpr .NonVar))
            [.ImplicitCastExpr (.DeclRefExpr (.Var ⟨1, 0, true⟩))],
          .Other [.Var ⟨3, 0, true⟩ (some mallocInit)]])
        ⟨[(1, .FREE)], 1, [], []⟩
      = (false, ⟨[(3, .OWNED), (1, .FREE)], 3, [⟨true, "Double free of memory"⟩], []⟩) := by
  refine ⟨?_, by decide, by decide⟩
  intro n l s0
  rw [traverseList]
  rcases traverse .skipSubtree n s0 with ⟨b, s1⟩
  cases b <;> rfl

/-! ## C12: the final verdict -/

/-- C12. For every unit and either traversal policy, `HandleTranslationUnit`
runs the leak check on the state the traversal ended in, whether the traversal
returned `true` or `false`, and appends `Memory okay!` to `outs` exactly when
both returned `true`; otherwise `outs` is left as it was. -/
theorem final_verdict (pol : RejectPolicy) (tu : Node) (s : MemoryAnalysisVisitor) :
    (((traverse pol tu s).1 = true ∧ (checkMemState (traverse pol tu s).2).1 = true) →
      HandleTranslationUnit pol tu s
        = { (checkMemState (traverse pol tu s).2).2 with
            outs := (checkMemState (traverse pol tu s).2).2.outs ++ ["Memory okay!\n"] }) ∧
    (¬ ((traverse pol tu s).1 = true ∧ (checkMemState (traverse pol tu s).2).1 = true) →
      HandleTranslationUnit pol tu s = (checkMemState (traverse pol tu s).2).2) ∧
    ((HandleTranslationUnit pol tu s).outs = s.outs ++ ["Memory okay!\n"] ↔
      ((traverse pol tu s).1 = true ∧ (checkMemState (traverse pol tu s).2).1 = true)) ∧
    ((HandleTranslationUnit pol tu s).outs = s.outs ∨
      (HandleTranslationUnit pol tu s).outs = s.outs ++ ["Memory okay!\n"]) ∧
    (HandleTranslationUnit pol tu s).stateMap = (traverse pol tu s).2.stateMap ∧
    ((traverse pol tu s).1 = false →
      HandleTranslationUnit pol tu s = (checkMemState (traverse pol tu s).2).2) := by
  have houts : (checkMemState (traverse pol tu s).2).2.outs = s.outs := by
    rw [checkMemState_outs, traverse_outs]
  have hmap : (checkMemState (traverse pol tu s).2).2.stateMap
      = (traverse pol tu s).2.stateMap := by
    unfold checkMemState
    rcases checkMemStateLoop_cases (traverse pol tu s).2.stateMap (traverse pol tu s).2
      with ⟨-, h⟩ | ⟨-, h | h⟩ <;> rw [h] <;> rfl
  have hyes : ((traverse pol tu s).1 = true ∧ (checkMemState (traverse pol tu s).2).1 = true) →
      HandleTranslationUnit pol tu s
        = { (checkMemState (traverse pol tu s).2).2 with
            outs := (checkMemState (traverse pol tu s).2).2.outs ++ ["Memory okay!\n"] } := by
    rintro ⟨h1, h2⟩
    unfold HandleTranslationUnit
    rcases ht : traverse pol tu s with ⟨b, s1⟩
    rw [ht] at h1 h2
    rcases hc : checkMemState s1 with ⟨c, s2⟩
    rw [hc] at h2
    simp only at h1 h2
    subst h1; subst h2
    simp [hc]
  have hno : ¬ ((traverse pol tu s).1 = true ∧ (checkMemState (traverse pol tu s).2).1 = true) →
      HandleTranslationUnit pol tu s = (checkMemState (traverse pol tu s).2).2 := by
    intro h
    unfold HandleTranslationUnit
    rcases ht : traverse pol tu s with ⟨b, s1⟩
    rw [ht] at h
    rcases hc : checkMemState s1 with ⟨c, s2⟩
    rw [hc] at h
    simp only at h
    cases b <;> cases c <;> simp [hc] at h ⊢
  refine ⟨hyes, hno, ?_, ?_, ?_, ?_⟩
  · constructor
    · intro h
      by_contra hcon
      rw [hno hcon, houts] at h
      simp at h
    · intro h
      rw [hyes h]
      show (checkMemState (traverse pol tu s).2).2.outs ++ _ = _
      rw [houts]
  · by_cases h : (traverse pol tu s).1 = true ∧ (checkMemState (traverse pol tu s).2).1 = true
    · right
      rw [hyes h]
      show (checkMemState (traverse pol tu s).2).2.outs ++ _ = _
      rw [houts]
    · left
      rw [hno h, houts]
  · by_cases h : (traverse pol tu s).1 = true ∧ (checkMemState (traverse pol tu s).2).1 = true
    · rw [hyes h]; exact hmap
    · rw [hno h]; exact hmap
  · intro h
    exact hno (fun hh => by rw [h] at hh; cases hh.1)

/-! ## C13: the order in which the leak check scans the map -/

theorem checkMemStateLoop_of_noUnknown (m : MemStateMap) (s : MemoryAnalysisVisitor)
    (hno : NoUnknown m) (h : ¬ ∀ e ∈ m, e.2 = PointerState.FREE) :
    checkMemStateLoop m s
      = (false, printError false "There is potentially unfreed memory" s) := by
  induction m with
  | nil => exact absurd (by simp) h
  | cons e rest ih =>
    obtain ⟨k0, v0⟩ := e
    have hrest : NoUnknown rest := fun e he => hno e (List.mem_cons_of_mem _ he)
    cases v0 with
    | UNKNOWN => exact absurd rfl (hno (k0, .UNKNOWN) (List.mem_cons_self _ _))
    | OWNED => rfl
    | FREE =>
      simp only [checkMemStateLoop]
      apply ih hrest
      intro hall
      apply h
      intro e he
      rcases List.mem_cons.1 he with rfl | he
      · rfl
      · exact hall e he

theorem NoUnknown_traverse (pol : RejectPolicy) (n : Node) (s : MemoryAnalysisVisitor)
    (h : NoUnknown s.stateMap) : NoUnknown (traverse pol n s).2.stateMap :=
  traverse_invariant (fun s' => NoUnknown s'.stateMap) (fun m s' hs' => visit_NoUnknown m s' hs')
    pol n s h

/-- C13. The map a traversal from the empty state ends with holds no
`UNKNOWN`, and on such a map the leak check does not depend on the order in
which the entries are scanned: for every permutation `m'` of the final map the
scan of `m'` returns the same result and writes the same line as the scan of
the map itself, so the verdict of the run is the same for every iteration
order. -/
theorem leak_check_order_independent (pol : RejectPolicy) (tu : Node) (m' : MemStateMap)
    (hperm : m'.Perm (traverse pol tu MemoryAnalysisVisitor.init).2.stateMap) :
    (∀ s : MemoryAnalysisVisitor,
      checkMemStateLoop m' s
        = checkMemStateLoop (traverse pol tu MemoryAnalysisVisitor.init).2.stateMap s) ∧
    (checkMemState { (traverse pol tu MemoryAnalysisVisitor.init).2 with stateMap := m' }).1
      = (checkMemState (traverse pol tu MemoryAnalysisVisitor.init).2).1 ∧
    (checkMemState { (traverse pol tu MemoryAnalysisVisitor.init).2 with stateMap := m' }).2.errs
      = (checkMemState (traverse pol tu MemoryAnalysisVisitor.init).2).2.errs ∧
    (checkMemState { (traverse pol tu MemoryAnalysisVisitor.init).2 with stateMap := m' }).2.outs
      = (checkMemState (traverse pol tu MemoryAnalysisVisitor.init).2).2.outs := by
  have hno : NoUnknown (traverse pol tu MemoryAnalysisVisitor.init).2.stateMap :=
    NoUnknown_traverse pol tu _ (by intro e he; cases he)
  have hno' : NoUnknown m' := fun e he => hno e (hperm.mem_iff.1 he)
  have hloop : ∀ s : MemoryAnalysisVisitor,
      checkMemStateLoop m' s
        = checkMemStateLoop (traverse pol tu MemoryAnalysisVisitor.init).2.stateMap s := by
    intro s
    by_cases hall : ∀ e ∈ (traverse pol tu MemoryAnalysisVisitor.init).2.stateMap,
        e.2 = PointerState.FREE
    · rw [checkMemStateLoop_allFree _ s hall,
        checkMemStateLoop_allFree m' s (fun e he => hall e (hperm.mem_iff.1 he))]
    · rw [checkMemStateLoop_of_noUnknown _ s hno hall,
        checkMemStateLoop_of_noUnknown m' s hno'
          (fun h => hall (fun e he => h e (hperm.mem_iff.2 he)))]
  refine ⟨hloop, ?_, ?_, ?_⟩
  · show (checkMemStateLoop m' _).1 = (checkMemStateLoop _ _).1
    rw [hloop]
    rcases checkMemStateLoop_cases (traverse pol tu MemoryAnalysisVisitor.init).2.stateMap
      { (traverse pol tu MemoryAnalysisVisitor.init).2 with stateMap := m' }
      with ⟨h1, h2⟩ | ⟨h1, h2 | h2⟩
    · rw [h2, checkMemStateLoop_allFree _ _ h1]
    · rw [h2, checkMemStateLoop_of_noUnknown _ _ hno h1]
    · rw [h2, checkMemStateLoop_of_noUnknown _ _ hno h1]
  · show (checkMemStateLoop m' _).2.errs = (checkMemStateLoop _ _).2.errs
    rw [hloop]
    by_cases hall : ∀ e ∈ (traverse pol tu MemoryAnalysisVisitor.init).2.stateMap,
        e.2 = PointerState.FREE
    · rw [checkMemStateLoop_allFree _ _ hall, checkMemStateLoop_allFree _ _ hall]
    · rw [checkMemStateLoop_of_noUnknown _ _ hno hall,
        checkMemStateLoop_of_noUnknown _ _ hno hall]
      rfl
  · show (checkMemStateLoop m' _).2.outs = (checkMemStateLoop _ _).2.outs
    rw [hloop]
    by_cases hall : ∀ e ∈ (traverse pol tu MemoryAnalysisVisitor.init).2.stateMap,
        e.2 = PointerState.FREE
    · rw [checkMemStateLoop_allFree _ _ hall, checkMemStateLoop_allFree _ _ hall]
    · rw [checkMemStateLoop_of_noUnknown _ _ hno hall,
        checkMemStateLoop_of_noUnknown _ _ hno hall]
      rfl

/-- Witness for C13: the final map of `tests/leak.c`, scanned with the entry
of the leaked variable first instead of last. -/
theorem leak_check_order_independent_witness :
    (traverse .abortTraversal leakUnit MemoryAnalysisVisitor.init).2.stateMap
      = [(2, .FREE), (1, .OWNED)] ∧
    ∀ s : MemoryAnalysisVisitor,
      checkMemStateLoop [(1, .OWNED), (2, .FREE)] s
        = checkMemStateLoop
            (traverse .abortTraversal leakUnit MemoryAnalysisVisitor.init).2.stateMap s :=
  ⟨by decide,
   (leak_check_order_independent .abortTraversal leakUnit [(1, .OWNED), (2, .FREE)]
      (by decide)).1⟩

/-! ## C14: an allocation call outside a declaration -/

/-- C14, what the code does. The cursor is set by a declaration with an
initialiser and nothing clears it: no call changes it. So the bare call
`malloc(n);` is not reported once a declaration with an initialiser has been
visited. For every variable `p`, the traversal of
`T p = malloc(..); free(p); malloc(n);` from the empty state accepts all three
statements and writes nothing: the last call finds the cursor still on `p`,
and its `insert` leaves the `FREE` entry of `p` as it was. For every variable
`x` declared with an initialiser `e` that holds no call, the traversal of
`T x = e; malloc(n);` accepts the bare call, writes nothing and books the
allocation on `x`, which ends `OWNED`. The line "Allocated memory is not
assigned to a variable!" is written, and the call rejected, only while the
cursor is 0, that is before any declaration with an initialiser. Under either
traversal policy; `p` and `x` have the identities clang gives them, not 0. -/
theorem stale_cursor_allocation (pol : RejectPolicy) (p x : VarDecl)
    (init e calleeF calleeM : Node)
    (argsF argsM : List Node) (fn : String) (hp : p.id ≠ 0)
    (hwf1 : (Step.alloc p init).wellFormed = true)
    (hwf2 : (Step.free p calleeF argsF).wellFormed = true)
    (hfn : fn = "malloc" ∨ fn = "calloc")
    (hcq : quiet calleeM = true) (haq : argsM.all quiet = true)
    (hx : x.id ≠ 0) (hxi : x.hasInit = true) (he : quiet e = true) :
    traverse pol
        (.Other [(Step.alloc p init).node, (Step.free p calleeF argsF).node,
          .CallExpr (some fn) calleeM argsM])
        MemoryAnalysisVisitor.init
      = (true, ⟨[(p.id, .FREE)], p.id, [], []⟩) ∧
    traverse pol (.CallExpr (some fn) calleeM argsM) ⟨[(p.id, .FREE)], p.id, [], []⟩
      = (true, ⟨[(p.id, .FREE)], p.id, [], []⟩) ∧
    traverse pol
        (.Other [.Other [.Var x (some e)], .CallExpr (some fn) calleeM argsM])
        MemoryAnalysisVisitor.init
      = (true, ⟨[(x.id, .OWNED)], x.id, [], []⟩) ∧
    (∀ (dc : Option String) (args : List Node) (s : MemoryAnalysisVisitor),
      (VisitCallExpr dc args s).2.currVar = s.currVar) ∧
    (∀ (args : List Node) (s : MemoryAnalysisVisitor),
      (s.currVar = 0 →
        VisitCallExpr (some fn) args s
          = (false, { s with errs := s.errs ++
              [⟨true, "Allocated memory is not assigned to a variable!"⟩] })) ∧
      (s.currVar ≠ 0 →
        (VisitCallExpr (some fn) args s).1 = true ∧
        (VisitCallExpr (some fn) args s).2.errs = s.errs)) := by
  have h1 : traverse pol (Step.alloc p init).node MemoryAnalysisVisitor.init
      = (true, ⟨[(p.id, .OWNED)], p.id, [], []⟩) := by
    rw [traverse_alloc pol p init MemoryAnalysisVisitor.init hwf1 hp rfl]; rfl
  have h2 : traverse pol (Step.free p calleeF argsF).node ⟨[(p.id, .OWNED)], p.id, [], []⟩
      = (true, ⟨[(p.id, .FREE)], p.id, [], []⟩) := by
    rw [traverse_free pol p calleeF argsF _ hwf2 (by simp [MemStateMap.at?])]
    simp [MemStateMap.assign]
  have h3 : traverse pol (.CallExpr (some fn) calleeM argsM) ⟨[(p.id, .FREE)], p.id, [], []⟩
      = (true, ⟨[(p.id, .FREE)], p.id, [], []⟩) := by
    rw [traverse_alloc_call pol fn calleeM argsM _ hfn hcq haq hp]
    simp [MemStateMap.insert, MemStateMap.at?]
  have h4 : traverse pol (.Other [.Var x (some e)]) MemoryAnalysisVisitor.init
      = (true, ⟨[], x.id, [], []⟩) := by
    have hv : traverse pol (.Var x (some e)) MemoryAnalysisVisitor.init
        = (true, ⟨[], x.id, [], []⟩) := by
      have hq := traverse_quiet pol e ⟨[], x.id, [], []⟩ (List.all_eq_true.1 he)
      simp [traverse, VisitVarDecl, hxi, MemoryAnalysisVisitor.init, hq]
    rw [traverse, traverseList_cons_of_true hv, traverseList]
  have h5 : traverse pol (.CallExpr (some fn) calleeM argsM) ⟨[], x.id, [], []⟩
      = (true, ⟨[(x.id, .OWNED)], x.id, [], []⟩) := by
    rw [traverse_alloc_call pol fn calleeM argsM _ hfn hcq haq hx]
    simp [MemStateMap.insert, MemStateMap.at?]
  refine ⟨?_, h3, ?_, VisitCallExpr_currVar, ?_⟩
  · rw [traverse, traverseList_cons_of_true h1, traverseList_cons_of_true h2,
      traverseList_cons_of_true h3, traverseList]
  · rw [traverse, traverseList_cons_of_true h4, traverseList_cons_of_true h5, traverseList]
  · intro args s
    rw [VisitCallExpr_alloc fn hfn]
    constructor
    · intro h; simp [h, printError]
    · intro h; simp [h]

/-- Witness for C14: `int *p = malloc(..); free(p); malloc(n);` with `p` of
identity 1, and `int x = 0; malloc(n);` with `x` of identity 5. -/
theorem stale_cursor_allocation_witness :
    traverse .abortTraversal
        (.Other [(Step.alloc ⟨1, 0, true⟩ mallocInit).node,
          (Step.free ⟨1, 0, true⟩ (.ImplicitCastExpr (.DeclRefExpr .NonVar))
            [.ImplicitCastExpr (.DeclRefExpr (.Var ⟨1, 0, true⟩))]).node,
          .CallExpr (some "malloc") (.ImplicitCastExpr (.DeclRefExpr .NonVar)) [.Other []]])
        MemoryAnalysisVisitor.init
      = (true, ⟨[(1, .FREE)], 1, [], []⟩) ∧
    traverse .abortTraversal
        (.Other [.Other [.Var ⟨5, 1, true⟩ (some (.Other []))],
          .CallExpr (some "malloc") (.ImplicitCastExpr (.DeclRefExpr .NonVar)) [.Other []]])
        MemoryAnalysisVisitor.init
      = (true, ⟨[(5, .OWNED)], 5, [], []⟩) :=
  ⟨(stale_cursor_allocation .abortTraversal ⟨1, 0, true⟩ ⟨5, 1, true⟩ mallocInit (.Other [])
      (.ImplicitCastExpr (.DeclRefExpr .NonVar)) (.ImplicitCastExpr (.DeclRefExpr .NonVar))
      [.ImplicitCastExpr (.DeclRefExpr (.Var ⟨1, 0, true⟩))] [.Other []] "malloc"
      (by decide) (by decide) (by decide) (Or.inl rfl) (by decide) (by decide)
      (by decide) rfl (by decide)).1,
   (stale_cursor_allocation .abortTraversal ⟨1, 0, true⟩ ⟨5, 1, true⟩ mallocInit (.Other [])
      (.ImplicitCastExpr (.DeclRefExpr .NonVar)) (.ImplicitCastExpr (.DeclRefExpr .NonVar))
      [.ImplicitCastExpr (.DeclRefExpr (.Var ⟨1, 0, true⟩))] [.Other []] "malloc"
      (by decide) (by decide) (by decide) (Or.inl rfl) (by decide) (by decide)
      (by decide) rfl (by decide)).2.2.1⟩

/-! ## C15: the overwrite check -/

/-- C15. For an assignment whose left-hand side is neither a dereference nor
a subscript and whose right-hand side is not an `OWNED` variable of the type
of the left-hand variable: if the left-hand side does not denote a variable,
or denotes one that is absent from the map or `FREE`, the callback returns
`true` and writes nothing; if it denotes an `OWNED` variable the overwrite
line is written and the callback returns `false`; if it denotes a variable
stored as `UNKNOWN` the unknown-state line is written and the callback returns
`false`. -/
theorem overwrite_check (s : MemoryAnalysisVisitor) (lhs rhs : Node)
    (hnd : ∀ sub, IgnoreParenImpCasts lhs ≠ .UnaryOperator .UO_Deref sub)
    (hni : ∀ base idx, IgnoreParenImpCasts lhs ≠ .ArraySubscriptExpr base idx)
    (hrhs : ∀ q w : VarDecl, unwrapExpr (some lhs) = some q → unwrapExpr (some rhs) = some w →
      w.type = q.type → s.stateMap.at? w.id ≠ some .OWNED) :
    (unwrapExpr (some lhs) = none → VisitBinaryOperator .BO_Assign lhs rhs s = (true, s)) ∧
    (∀ q : VarDecl, unwrapExpr (some lhs) = some q →
      (s.stateMap.at? q.id = none ∨ s.stateMap.at? q.id = some .FREE →
        VisitBinaryOperator .BO_Assign lhs rhs s = (true, s)) ∧
      (s.stateMap.at? q.id = some .OWNED →
        VisitBinaryOperator .BO_Assign lhs rhs s
          = (false, { s with errs := s.errs ++
              [⟨true, "Variable being assigned to has not freed its memory"⟩] })) ∧
      (s.stateMap.at? q.id = some .UNKNOWN →
        VisitBinaryOperator .BO_Assign lhs rhs s
          = (false, { s with errs := s.errs ++
              [⟨true, "Current state of memory is unknown here"⟩] }))) := by
  constructor
  · intro hl
    unfold VisitBinaryOperator
    simp only [ne_eq, not_true_eq_false, if_false]
    split
    · next uop sub heq =>
      have : uop ≠ .UO_Deref := fun h => hnd sub (by rw [heq, h])
      simp [checkDeref, this]
    · next base idx heq => exact absurd heq (hni base idx)
    · simp [hl]
  · intro q hq
    have hal : rhsOwnedAlias q rhs s = false := by
      unfold rhsOwnedAlias
      split
      · rfl
      · next w hw =>
        split
        · next hty =>
          have := hrhs q w hq hw hty
          cases hs : s.stateMap.at? w.id with
          | none => rfl
          | some st => cases st <;> simp_all
        · rfl
    rw [VisitBinaryOperator_var lhs rhs q s hq, hal]
    refine ⟨?_, ?_, ?_⟩
    · rintro (h | h) <;> simp [h]
    · intro h; simp [h, printError]
    · intro h; simp [h, printError]

/-- Witness for C15: `q = 0;` with `q` (identity 1) `OWNED`. -/
theorem overwrite_check_witness :
    VisitBinaryOperator .BO_Assign (.DeclRefExpr (.Var ⟨1, 0, true⟩)) (.Other [])
        ⟨[(1, .OWNED)], 1, [], []⟩
      = (false, ⟨[(1, .OWNED)], 1,
          [⟨true, "Variable being assigned to has not freed its memory"⟩], []⟩) :=
  ((overwrite_check ⟨[(1, .OWNED)], 1, [], []⟩ (.DeclRefExpr (.Var ⟨1, 0, true⟩)) (.Other [])
    (by intro sub h; simp [IgnoreParenImpCasts] at h)
    (by intro base idx h; simp [IgnoreParenImpCasts] at h)
    (by intro q w _ hw; simp [unwrapExpr, IgnoreParenImpCasts] at hw)).2
      ⟨1, 0, true⟩ rfl).2.1 (by decide)

/-! ## C16: return of a variable in unknown state -/

/-- C16, counterexample. `return x;` with `x` absent from the map, the state
the data model calls unknown, returns `true` and writes nothing. -/
theorem return_absent_counterexample :
    MemStateMap.at? [(1, .OWNED)] 5 = none ∧
    VisitReturnStmt (some (.ImplicitCastExpr (.DeclRefExpr (.Var ⟨5, 0, false⟩))))
        ⟨[(1, .OWNED)], 1, [], []⟩ = (true, ⟨[(1, .OWNED)], 1, [], []⟩) := by
  decide

/-- C16, amended. A return statement whose operand denotes a variable stored
as `UNKNOWN` writes "Current state of memory in return is unknown here" and
returns `false`, and this is the only case in which the return callback
returns `false`; a return whose operand denotes a variable absent from the
map, or does not denote a variable, or a return without operand, returns
`true` and writes nothing. -/
theorem return_unknown (s : MemoryAnalysisVisitor) :
    (∀ (e : Node) (v : VarDecl), unwrapExpr (some e) = some v →
      s.stateMap.at? v.id = some .UNKNOWN →
      VisitReturnStmt (some e) s
        = (false, { s with errs := s.errs ++
            [⟨true, "Current state of memory in return is unknown here"⟩] })) ∧
    (∀ (e : Node) (v : VarDecl), unwrapExpr (some e) = some v →
      s.stateMap.at? v.id = none → VisitReturnStmt (some e) s = (true, s)) ∧
    (∀ e : Node, unwrapExpr (some e) = none → VisitReturnStmt (some e) s = (true, s)) ∧
    VisitReturnStmt none s = (true, s) ∧
    (∀ r : Option Node, (VisitReturnStmt r s).1 = false ↔
      ∃ (e : Node) (v : VarDecl), r = some e ∧ unwrapExpr (some e) = some v ∧
        s.stateMap.at? v.id = some .UNKNOWN) := by
  refine ⟨?_, ?_, ?_, rfl, ?_⟩
  · intro e v hv h
    simp [VisitReturnStmt, hv, h, printError]
  · intro e v hv h
    simp [VisitReturnStmt, hv, h]
  · intro e hv
    simp [VisitReturnStmt, hv]
  · intro r
    constructor
    · intro h
      cases r with
      | none => simp [VisitReturnStmt] at h
      | some e =>
        cases hv : unwrapExpr (some e) with
        | none => simp [VisitReturnStmt, hv] at h
        | some v =>
          cases hst : s.stateMap.at? v.id with
          | none => simp [VisitReturnStmt, hv, hst] at h
          | some st =>
            cases st with
            | UNKNOWN => exact ⟨e, v, rfl, hv, hst⟩
            | FREE => simp [VisitReturnStmt, hv, hst] at h
            | OWNED => simp [VisitReturnStmt, hv, hst] at h
    · rintro ⟨e, v, rfl, hv, hst⟩
      simp [VisitReturnStmt, hv, hst]

/-! ## C17: the result of the leak check -/

/-- C17. The leak check returns `true` exactly when every entry of the map is
`FREE`; it then writes nothing. When it returns `false` it writes exactly one
line, whatever the number of entries that are not `FREE`. It never changes
the map or the cursor. -/
theorem leak_checker_result (s : MemoryAnalysisVisitor) :
    ((checkMemState s).1 = true ↔ ∀ e ∈ s.stateMap, e.2 = PointerState.FREE) ∧
    ((checkMemState s).1 = true → (checkMemState s).2 = s) ∧
    ((checkMemState s).1 = false →
      ∃ msg : String, (checkMemState s).2 = { s with errs := s.errs ++ [⟨false, msg⟩] } ∧
        (msg = "There is potentially unfreed memory" ∨ msg = "Memory state is unknown")) ∧
    (checkMemState s).2.stateMap = s.stateMap ∧
    (checkMemState s).2.currVar = s.currVar ∧
    checkMemState { s with stateMap := [] } = (true, { s with stateMap := [] }) := by
  unfold checkMemState
  rcases checkMemStateLoop_cases s.stateMap s with ⟨h1, h2⟩ | ⟨h1, h2 | h2⟩
  · rw [h2]
    exact ⟨⟨fun _ => h1, fun _ => rfl⟩, fun _ => rfl, (fun h => by cases h), rfl, rfl, rfl⟩
  · rw [h2]
    exact ⟨⟨(fun h => by cases h), fun h => absurd h h1⟩, (fun h => by cases h),
      fun _ => ⟨_, rfl, Or.inl rfl⟩, rfl, rfl, rfl⟩
  · rw [h2]
    exact ⟨⟨(fun h => by cases h), fun h => absurd h h1⟩, (fun h => by cases h),
      fun _ => ⟨_, rfl, Or.inr rfl⟩, rfl, rfl, rfl⟩

/-! ## C18: the invariant of the map -/

/-- C18. No callback stores `UNKNOWN` and no callback removes a key, so along
every traversal, under either policy, a map without `UNKNOWN` stays without
`UNKNOWN` and every key that has an entry keeps one; from the empty state
every stored value is `OWNED` or `FREE`. On such a map the line "Memory state
is unknown" of the leak check, the line "Current state of memory is unknown
here" of the assignment callback (dereference, subscript and overwrite checks)
and the line "Current state of memory in return is unknown here" of the return
callback are never written. -/
theorem store_invariant (pol : RejectPolicy) (tu : Node) :
    NoUnknown (traverse pol tu MemoryAnalysisVisitor.init).2.stateMap ∧
    (∀ (k : Int) (v : PointerState),
      (traverse pol tu MemoryAnalysisVisitor.init).2.stateMap.at? k = some v →
      v = .OWNED ∨ v = .FREE) ∧
    (∀ (m : Node) (s : MemoryAnalysisVisitor),
      NoUnknown s.stateMap → NoUnknown (visit m s).2.stateMap) ∧
    (∀ (n : Node) (s : MemoryAnalysisVisitor),
      NoUnknown s.stateMap → NoUnknown (traverse pol n s).2.stateMap) ∧
    (∀ (m : Node) (s : MemoryAnalysisVisitor) (k : Int),
      s.stateMap.at? k ≠ none → (visit m s).2.stateMap.at? k ≠ none) ∧
    (∀ (n : Node) (s : MemoryAnalysisVisitor) (k : Int),
      s.stateMap.at? k ≠ none → (traverse pol n s).2.stateMap.at? k ≠ none) ∧
    (∀ s : MemoryAnalysisVisitor, NoUnknown s.stateMap →
      (checkMemState s).2.errs ≠ s.errs ++ [⟨false, "Memory state is unknown"⟩] ∧
      (∀ (op : BinaryOperatorKind) (lhs rhs : Node),
        (VisitBinaryOperator op lhs rhs s).2.errs
          ≠ s.errs ++ [⟨true, "Current state of memory is unknown here"⟩]) ∧
      (∀ r : Option Node,
        (VisitReturnStmt r s).2.errs
          ≠ s.errs ++ [⟨true, "Current state of memory in return is unknown here"⟩])) := by
  have hno := NoUnknown_traverse pol tu MemoryAnalysisVisitor.init (by intro e he; cases he)
  refine ⟨hno, ?_, visit_NoUnknown, NoUnknown_traverse pol, visit_present, ?_, ?_⟩
  · intro k v h
    have := at?_ne_unknown hno k
    cases v with
    | UNKNOWN => exact absurd h this
    | OWNED => exact Or.inl rfl
    | FREE => exact Or.inr rfl
  · intro n s k h
    exact traverse_invariant (fun s' => s'.stateMap.at? k ≠ none)
      (fun m s' hs' => visit_present m s' k hs') pol n s h
  · intro s hs
    refine ⟨?_, ?_, ?_⟩
    · unfold checkMemState
      by_cases hall : ∀ e ∈ s.stateMap, e.2 = PointerState.FREE
      · rw [checkMemStateLoop_allFree _ _ hall]; simp
      · rw [checkMemStateLoop_of_noUnknown _ _ hs hall]; simp [printError]
    · intro op lhs rhs
      unfold VisitBinaryOperator checkDeref checkIndex
      repeat' split
      all_goals
        first
        | simp [printError]; done
        | (next h => exact absurd h (at?_ne_unknown hs _))
    · intro r
      unfold VisitReturnStmt
      repeat' split
      all_goals
        first
        | simp [printError]; done
        | (next h => exact absurd h (at?_ne_unknown hs _))

/-! ## C19: what each callback may change -/

theorem VisitCallExpr_rejected (dc : Option String) (args : List Node)
    (s : MemoryAnalysisVisitor) (h : (VisitCallExpr dc args s).1 = false) :
    (VisitCallExpr dc args s).2.stateMap = s.stateMap := by
  unfold VisitCallExpr at h ⊢
  repeat' split
  all_goals
    first
    | rfl
    | (exfalso; revert h; simp_all)

theorem VisitCallExpr_other_keys (dc : Option String) (args : List Node)
    (s : MemoryAnalysisVisitor) (key k : Int) (hk : k ≠ key)
    (hkey : ∀ fn, dc = some fn →
      ((fn = "malloc" ∨ fn = "calloc" ∨ fn = "realloc") → key = s.currVar) ∧
      (fn = "free" → ∀ v, unwrapExpr args.head? = some v → key = v.id)) :
    (VisitCallExpr dc args s).2.stateMap.at? k = s.stateMap.at? k := by
  cases dc with
  | none => rfl
  | some fn =>
    obtain ⟨hcur, hfree⟩ := hkey fn rfl
    by_cases h1 : fn = "malloc" ∨ fn = "calloc"
    · have hc := hcur (by rcases h1 with h | h <;> simp [h])
      rw [VisitCallExpr_alloc fn h1]
      split
      · rfl
      · exact MemStateMap.at?_insert_ne _ _ _ _ (hc ▸ hk)
    · by_cases h2 : fn = "realloc"
      · have hc := hcur (by simp [h2])
        subst h2
        rw [VisitCallExpr_realloc]
        repeat' split
        all_goals
          first
          | rfl
          | exact MemStateMap.at?_insert_ne _ _ _ _ (hc ▸ hk)
          | exact MemStateMap.at?_assign_ne _ _ _ _ (hc ▸ hk)
      · by_cases h3 : fn = "free"
        · subst h3
          rw [VisitCallExpr_free]
          split
          · rfl
          · next w hw =>
            have hc := hfree rfl w hw
            split
            · rfl
            · rfl
            · exact MemStateMap.at?_assign_ne _ _ _ _ (hc ▸ hk)
        · have h1' : fn ≠ "malloc" ∧ fn ≠ "calloc" := by
            constructor <;> intro hh <;> exact h1 (by simp [hh])
          simp [VisitCallExpr, h1'.1, h1'.2, h2, h3]

/-- C19. (a) A call callback that returns `false` leaves the map and the
cursor as they were. (b) The assignment callback, with its dereference and
subscript checks, and the return callback never change the map or the cursor.
(c) The declaration callback never changes the map, and sets the cursor to
the declared identity when the declaration has an initialiser and leaves it
otherwise. (d) A call callback changes the entry of at most one key: the
cursor for `malloc`, `calloc` and `realloc`, the argument variable for `free`;
every other key has the same state after the call as before, and no call
changes the cursor. -/
theorem callbacks_frame (s : MemoryAnalysisVisitor) :
    (∀ (dc : Option String) (args : List Node), (VisitCallExpr dc args s).1 = false →
      (VisitCallExpr dc args s).2.stateMap = s.stateMap ∧
      (VisitCallExpr dc args s).2.currVar = s.currVar) ∧
    (∀ (op : BinaryOperatorKind) (lhs rhs : Node),
      (VisitBinaryOperator op lhs rhs s).2.stateMap = s.stateMap ∧
      (VisitBinaryOperator op lhs rhs s).2.currVar = s.currVar) ∧
    (∀ (op : UnaryOperatorKind) (sub : Node),
      (checkDeref op sub s).2.stateMap = s.stateMap ∧
      (checkDeref op sub s).2.currVar = s.currVar) ∧
    (∀ base : Node,
      (checkIndex base s).2.stateMap = s.stateMap ∧
      (checkIndex base s).2.currVar = s.currVar) ∧
    (∀ r : Option Node,
      (VisitReturnStmt r s).2.stateMap = s.stateMap ∧
      (VisitReturnStmt r s).2.currVar = s.currVar) ∧
    (∀ v : VarDecl,
      (VisitVarDecl v s).2.stateMap = s.stateMap ∧
      (VisitVarDecl v s).2.currVar = (if v.hasInit then v.id else s.currVar)) ∧
    (∀ (fn : String) (args : List Node) (k : Int),
      fn = "malloc" ∨ fn = "calloc" ∨ fn = "realloc" → k ≠ s.currVar →
      (VisitCallExpr (some fn) args s).2.stateMap.at? k = s.stateMap.at? k) ∧
    (∀ (args : List Node) (v : VarDecl) (k : Int),
      unwrapExpr args.head? = some v → k ≠ v.id →
      (VisitCallExpr (some "free") args s).2.stateMap.at? k = s.stateMap.at? k) ∧
    (∀ args : List Node, unwrapExpr args.head? = none →
      (VisitCallExpr (some "free") args s).2.stateMap = s.stateMap) ∧
    (∀ (fn : String) (args : List Node),
      fn ≠ "malloc" → fn ≠ "calloc" → fn ≠ "realloc" → fn ≠ "free" →
      VisitCallExpr (some fn) args s = (true, s)) ∧
    (∀ args : List Node, VisitCallExpr none args s = (true, s)) ∧
    (∀ (dc : Option String) (args : List Node),
      (VisitCallExpr dc args s).2.currVar = s.currVar) := by
  refine ⟨?_, ?_, ?_, ?_, ?_, ?_, ?_, ?_, ?_, ?_, ?_, ?_⟩
  · intro dc args h
    exact ⟨VisitCallExpr_rejected dc args s h, VisitCallExpr_currVar dc args s⟩
  · exact fun op lhs rhs => VisitBinaryOperator_frame op lhs rhs s
  · exact fun op sub => checkDeref_frame op sub s
  · exact fun base => checkIndex_frame base s
  · exact fun r => VisitReturnStmt_frame r s
  · intro v
    unfold VisitVarDecl
    split <;> simp_all
  · intro fn args k hfn hk
    apply VisitCallExpr_other_keys (some fn) args s s.currVar k hk
    intro fn' hfn'
    cases hfn'
    refine ⟨fun _ => rfl, ?_⟩
    intro hfree
    rcases hfn with h | h | h <;> rw [h] at hfree <;> simp at hfree
  · intro args v k hv hk
    apply VisitCallExpr_other_keys (some "free") args s v.id k hk
    intro fn' hfn'
    cases hfn'
    refine ⟨fun h => by simp at h, fun _ w hw => ?_⟩
    rw [hv] at hw; cases hw; rfl
  · intro args h
    rw [VisitCallExpr_free]; simp [h, printError]
  · intro fn args h1 h2 h3 h4
    simp [VisitCallExpr, h1, h2, h3, h4]
  · intro args; rfl
  · exact fun dc args => VisitCallExpr_currVar dc args s

/-! ## C20: which variable an allocation is bound to -/

/-- C20. For distinct variables `p` and `q`: the traversal of
`T p = malloc(..); T q; q = malloc(n);` from the empty state ends in the state
that `T p = malloc(..);` alone ends in: `p` is `OWNED`, `q` has no entry,
nothing is written, the cursor is on `p`. A `free(p)` after it makes the whole
unit pass the leak check, `Memory okay!` being printed; a `free(q)` after it is
rejected with "Current state of memory is unknown here". Under either
traversal policy; `p` has the identity clang gives it, which is not 0. -/
theorem allocation_bound_to_last_declaration (pol : RejectPolicy) (p q : VarDecl)
    (init lhs rhs callee calleeP calleeQ : Node) (args argsP argsQ : List Node) (fn : String)
    (hpq : p.id ≠ q.id) (hp0 : p.id ≠ 0) (hqinit : q.hasInit = false)
    (hwf : (Step.alloc p init).wellFormed = true)
    (hl : unwrapExpr (some lhs) = some q)
    (hr : IgnoreParenImpCasts rhs = .CallExpr (some fn) callee args)
    (hfn : fn = "malloc" ∨ fn = "calloc")
    (hcq : quiet callee = true) (haq : args.all quiet = true)
    (hfp : (Step.free p calleeP argsP).wellFormed = true)
    (hfq : (Step.free q calleeQ argsQ).wellFormed = true) :
    traverse pol
        (.Other [(Step.alloc p init).node, .Other [.Var q none],
          .BinaryOperator .BO_Assign lhs rhs])
        MemoryAnalysisVisitor.init
      = (true, ⟨[(p.id, .OWNED)], p.id, [], []⟩) ∧
    traverse pol (.Other [(Step.alloc p init).node]) MemoryAnalysisVisitor.init
      = (true, ⟨[(p.id, .OWNED)], p.id, [], []⟩) ∧
    MemStateMap.at? [(p.id, .OWNED)] p.id = some .OWNED ∧
    MemStateMap.at? [(p.id, .OWNED)] q.id = none ∧
    HandleTranslationUnit pol
        (.Other [(Step.alloc p init).node, .Other [.Var q none],
          .BinaryOperator .BO_Assign lhs rhs, (Step.free p calleeP argsP).node])
        MemoryAnalysisVisitor.init
      = ⟨[(p.id, .FREE)], p.id, [], ["Memory okay!\n"]⟩ ∧
    traverse pol
        (.Other [(Step.alloc p init).node, .Other [.Var q none],
          .BinaryOperator .BO_Assign lhs rhs, (Step.free q calleeQ argsQ).node])
        MemoryAnalysisVisitor.init
      = (false, ⟨[(p.id, .OWNED)], p.id,
          [⟨true, "Current state of memory is unknown here"⟩], []⟩) := by
  have hqabs : MemStateMap.at? [(p.id, .OWNED)] q.id = none := by
    simp [MemStateMap.at?, hpq]
  have h1 : traverse pol (Step.alloc p init).node MemoryAnalysisVisitor.init
      = (true, ⟨[(p.id, .OWNED)], p.id, [], []⟩) := by
    rw [traverse_alloc pol p init MemoryAnalysisVisitor.init hwf hp0 rfl]; rfl
  have h2 : traverse pol (.Other [.Var q none]) ⟨[(p.id, .OWNED)], p.id, [], []⟩
      = (true, ⟨[(p.id, .OWNED)], p.id, [], []⟩) := by
    have hv : traverse pol (.Var q none) ⟨[(p.id, .OWNED)], p.id, [], []⟩
        = (true, ⟨[(p.id, .OWNED)], p.id, [], []⟩) := by
      simp [traverse, VisitVarDecl, hqinit]
    rw [traverse, traverseList_cons_of_true hv, traverseList]
  have h3 : traverse pol (.BinaryOperator .BO_Assign lhs rhs) ⟨[(p.id, .OWNED)], p.id, [], []⟩
      = (true, ⟨[(p.id, .OWNED)], p.id, [], []⟩) := by
    rw [traverse_assign_alloc pol q lhs rhs callee args fn _ hl hr hfn hcq haq hp0
      (Or.inl hqabs)]
    simp [MemStateMap.insert, MemStateMap.at?]
  have h4 : traverse pol (Step.free p calleeP argsP).node ⟨[(p.id, .OWNED)], p.id, [], []⟩
      = (true, ⟨[(p.id, .FREE)], p.id, [], []⟩) := by
    rw [traverse_free pol p calleeP argsP _ hfp (by simp [MemStateMap.at?])]
    simp [MemStateMap.assign]
  have h5 : traverse pol (Step.free q calleeQ argsQ).node ⟨[(p.id, .OWNED)], p.id, [], []⟩
      = (false, ⟨[(p.id, .OWNED)], p.id,
          [⟨true, "Current state of memory is unknown here"⟩], []⟩) := by
    simp only [Step.wellFormed, Bool.and_eq_true, beq_iff_eq] at hfq
    have hv : visit (Step.free q calleeQ argsQ).node ⟨[(p.id, .OWNED)], p.id, [], []⟩
        = (false, ⟨[(p.id, .OWNED)], p.id,
            [⟨true, "Current state of memory is unknown here"⟩], []⟩) := by
      simp [Step.node, visit, VisitCallExpr_free, hfq.1.1, hqabs, printError]
    rw [traverse_of_visit_false pol _ _ (by rw [hv]), hv]
  refine ⟨?_, ?_, by simp [MemStateMap.at?], hqabs, ?_, ?_⟩
  · rw [traverse, traverseList_cons_of_true h1, traverseList_cons_of_true h2,
      traverseList_cons_of_true h3, traverseList]
  · rw [traverse, traverseList_cons_of_true h1, traverseList]
  · have ht : traverse pol
        (.Other [(Step.alloc p init).node, .Other [.Var q none],
          .BinaryOperator .BO_Assign lhs rhs, (Step.free p calleeP argsP).node])
        MemoryAnalysisVisitor.init = (true, ⟨[(p.id, .FREE)], p.id, [], []⟩) := by
      rw [traverse, traverseList_cons_of_true h1, traverseList_cons_of_true h2,
        traverseList_cons_of_true h3, traverseList_cons_of_true h4, traverseList]
    simp [HandleTranslationUnit, ht, checkMemState, checkMemStateLoop]
  · rw [traverse, traverseList_cons_of_true h1, traverseList_cons_of_true h2,
      traverseList_cons_of_true h3, traverseList_cons_of_false h5]

/-- Witness for C20: `int *p = malloc(..); int *q; q = malloc(..);` with `p` of
identity 1 and `q` of identity 2, followed by `free(p)`. -/
theorem allocation_bound_to_last_declaration_witness :
    HandleTranslationUnit .abortTraversal
        (.Other [(Step.alloc ⟨1, 0, true⟩ mallocInit).node, .Other [.Var ⟨2, 0, false⟩ none],
          .BinaryOperator .BO_Assign (.DeclRefExpr (.Var ⟨2, 0, false⟩)) mallocInit,
          (Step.free ⟨1, 0, true⟩ (.ImplicitCastExpr (.DeclRefExpr .NonVar))
            [.ImplicitCastExpr (.DeclRefExpr (.Var ⟨1, 0, true⟩))]).node])
        MemoryAnalysisVisitor.init
      = ⟨[(1, .FREE)], 1, [], ["Memory okay!\n"]⟩ :=
  (allocation_bound_to_last_declaration .abortTraversal ⟨1, 0, true⟩ ⟨2, 0, false⟩ mallocInit
    (.DeclRefExpr (.Var ⟨2, 0, false⟩)) mallocInit
    (.ImplicitCastExpr (.DeclRefExpr .NonVar)) (.ImplicitCastExpr (.DeclRefExpr .NonVar))
    (.ImplicitCastExpr (.DeclRefExpr .NonVar))
    [.BinaryOperator .BO_Mul (.Other []) (.ImplicitCastExpr (.Other []))]
    [.ImplicitCastExpr (.DeclRefExpr (.Var ⟨1, 0, true⟩))]
    [.ImplicitCastExpr (.DeclRefExpr (.Var ⟨2, 0, false⟩))] "malloc"
    (by decide) (by decide) rfl (by decide) rfl rfl (Or.inl rfl) (by decide) (by decide)
    (by decide) (by decide)).2.2.2.2.1

end MemCheck
